import Mathlib

/-!
Verification of the volume-descriptor codec and validator of
`snapshot/mount_option.go` (nydus-snapshotter).

Modelling conventions:
* A Go `string` is a byte sequence; we model it as `List Nat` (each element a
  byte value).  Go `uint64` fields are modelled as `Nat`; the only place the
  64-bit width is observable in this code is the product
  `d.Blocksize * d.BlockNum`, which we therefore reduce modulo `2^64`.
* Go errors are modelled by small inductive kinds: the code only ever
  distinguishes which `fmt.Errorf`/wrap site produced the error.
* `map[string]string` is modelled as `Option (List (GoStr × GoStr))`
  (`none` = nil map); JSON objects keep their fields as ordered
  association lists.
-/

namespace NydusSnapshot

/-- A Go string, as its byte sequence. -/
abbrev GoStr := List Nat

/-- Byte sequence of an ASCII string literal. -/
def strBytes (s : String) : GoStr := s.data.map Char.toNat

/-- ASCII lowercasing of one byte; `strings.ToLower` restricted to ASCII.
(For the comparisons against `"sha256"`/`"sha1"` this agrees with Go's
Unicode-aware `ToLower`: no non-ASCII code point lowercases into those
ASCII letters.) -/
def toLowerByte (b : Nat) : Nat := if 65 ≤ b ∧ b ≤ 90 then b + 32 else b

/-- `strings.ToLower` on a byte string (ASCII). -/
def toLowerStr (s : GoStr) : GoStr := s.map toLowerByte

/-- Whether a byte is an ASCII hex digit (`0-9`, `a-f`, `A-F`). -/
def isHexDigitByte (b : Nat) : Bool :=
  decide ((48 ≤ b ∧ b ≤ 57) ∨ (97 ≤ b ∧ b ≤ 102) ∨ (65 ≤ b ∧ b ≤ 70))

/-- Success condition of Go's `hex.DecodeString`: even length and every byte
a hex digit. -/
def hexDecodeOk (s : GoStr) : Bool := s.length % 2 == 0 && s.all isHexDigitByte

/-! ### DmVerityInfo (source: `DmVerityInfo`, `IsValid`, `validateHashType`,
`isValidHash`, `isValidBlockSize`) -/

/-- `minBlockSize = 1 << 9`. -/
def minBlockSize : Nat := 2 ^ 9

/-- `maxBlockSize = 1 << 19`. -/
def maxBlockSize : Nat := 2 ^ 19

/-- Width of Go's `uint64`. -/
def U64 : Nat := 2 ^ 64

/-- Configuration for a DmVerity device (struct `DmVerityInfo`). -/
structure DmVerityInfo where
  HashType : GoStr
  Hash : GoStr
  BlockNum : Nat
  Blocksize : Nat
  Hashsize : Nat
  Offset : Nat
deriving DecidableEq, Repr

/-- The distinct failure sites of `DmVerityInfo.IsValid`, named by the error
kinds of the specification (§7/§4.2). -/
inductive VerityErr where
  | unsupportedAlgorithm
  | invalidHash
  | invalidBlockCount
  | invalidBlockSize
  | invalidOffset
deriving DecidableEq, Repr

/-- `isValidBlockSize`: the block size lies in `[minBlockSize, maxBlockSize]`. -/
def isValidBlockSize (blockSize : Nat) : Bool :=
  decide (minBlockSize ≤ blockSize ∧ blockSize ≤ maxBlockSize)

/-- `DmVerityInfo.isValidHash`: the hash must have exactly the expected length
and decode as hex (`len(d.Hash) != expectedLen || err != nil` fails). -/
def DmVerityInfo.isValidHash (d : DmVerityInfo) (expectedLen : Nat) :
    Except VerityErr Unit :=
  if d.Hash.length = expectedLen ∧ hexDecodeOk d.Hash then .ok () else .error .invalidHash

/-- `DmVerityInfo.validateHashType`: switch on `strings.ToLower(d.HashType)`. -/
def DmVerityInfo.validateHashType (d : DmVerityInfo) : Except VerityErr Unit :=
  if toLowerStr d.HashType = strBytes "sha256" then d.isValidHash 64
  else if toLowerStr d.HashType = strBytes "sha1" then d.isValidHash 40
  else .error .unsupportedAlgorithm

/-- `DmVerityInfo.IsValid`.  The comparison `d.Offset < d.Blocksize*d.BlockNum`
is a `uint64` multiplication in Go, hence the reduction modulo `2^64`. -/
def DmVerityInfo.IsValid (d : DmVerityInfo) : Except VerityErr Unit :=
  match d.validateHashType with
  | .error e => .error e
  | .ok () =>
    if d.BlockNum = 0 ∨ d.BlockNum > 2 ^ 32 - 1 then .error .invalidBlockCount
    else if ¬(isValidBlockSize d.Blocksize = true ∧ isValidBlockSize d.Hashsize = true) then
      .error .invalidBlockSize
    else if ¬(d.Offset % d.Hashsize = 0) ∨ d.Offset < (d.Blocksize * d.BlockNum) % U64 then
      .error .invalidOffset
    else .ok ()

/-- The five verity rules exactly as the claim words them, evaluated in order
with first-failure reporting; rule 5 uses the exact (unbounded) product.
This is the claim-side reference against which `DmVerityInfo.IsValid` is
compared. -/
def verityRulesSpec (d : DmVerityInfo) : Except VerityErr Unit :=
  if toLowerStr d.HashType = strBytes "sha256" ∨ toLowerStr d.HashType = strBytes "sha1" then
    if ¬(d.Hash.length = (if toLowerStr d.HashType = strBytes "sha256" then 64 else 40) ∧
         hexDecodeOk d.Hash = true) then .error .invalidHash
    else if ¬(1 ≤ d.BlockNum ∧ d.BlockNum ≤ 2 ^ 32 - 1) then .error .invalidBlockCount
    else if ¬(minBlockSize ≤ d.Blocksize ∧ d.Blocksize ≤ maxBlockSize ∧
              minBlockSize ≤ d.Hashsize ∧ d.Hashsize ≤ maxBlockSize) then
      .error .invalidBlockSize
    else if ¬(d.Offset % d.Hashsize = 0 ∧ d.Blocksize * d.BlockNum ≤ d.Offset) then
      .error .invalidOffset
    else .ok ()
  else .error .unsupportedAlgorithm

/-! ### Kata virtual volume payloads (source: `DirectAssignedVolume`,
`ImagePullVolume`, `NydusImageVolume`, `KataVirtualVolume`) -/

/-- Volume-type constant `KataVirtualVolumeDirectBlockType`. -/
def KataVirtualVolumeDirectBlockType : GoStr := strBytes "direct_block"

/-- Volume-type constant `KataVirtualVolumeImageRawBlockType`. -/
def KataVirtualVolumeImageRawBlockType : GoStr := strBytes "image_raw_block"

/-- Volume-type constant `KataVirtualVolumeLayerRawBlockType`. -/
def KataVirtualVolumeLayerRawBlockType : GoStr := strBytes "layer_raw_block"

/-- Volume-type constant `KataVirtualVolumeImageNydusBlockType`. -/
def KataVirtualVolumeImageNydusBlockType : GoStr := strBytes "image_nydus_block"

/-- Volume-type constant `KataVirtualVolumeLayerNydusBlockType`. -/
def KataVirtualVolumeLayerNydusBlockType : GoStr := strBytes "layer_nydus_block"

/-- Volume-type constant `KataVirtualVolumeImageNydusFsType`. -/
def KataVirtualVolumeImageNydusFsType : GoStr := strBytes "image_nydus_fs"

/-- Volume-type constant `KataVirtualVolumeLayerNydusFsType`. -/
def KataVirtualVolumeLayerNydusFsType : GoStr := strBytes "layer_nydus_fs"

/-- Volume-type constant `KataVirtualVolumeImageGuestPullType`. -/
def KataVirtualVolumeImageGuestPullType : GoStr := strBytes "image_guest_pull"

/-- Meta information for a directly assigned volume.  The Go field is a
`map[string]string`; `none` models a nil map, `some l` a non-nil map whose
entries are kept as an association list. -/
structure DirectAssignedVolume where
  Metadata : Option (List (GoStr × GoStr))
deriving DecidableEq, Repr

/-- `DirectAssignedVolume.IsValid`: the metadata map is non-nil. -/
def DirectAssignedVolume.IsValid (d : DirectAssignedVolume) : Bool :=
  d.Metadata.isSome

/-- Meta information for pulling an image inside the guest. -/
structure ImagePullVolume where
  Metadata : Option (List (GoStr × GoStr))
deriving DecidableEq, Repr

/-- `ImagePullVolume.IsValid`: the metadata map is non-nil. -/
def ImagePullVolume.IsValid (i : ImagePullVolume) : Bool :=
  i.Metadata.isSome

/-- Nydus image volume information. -/
structure NydusImageVolume where
  Config : GoStr
  SnapshotDir : GoStr
deriving DecidableEq, Repr

/-- `NydusImageVolume.IsValid`: a non-empty config or snapshot directory. -/
def NydusImageVolume.IsValid (n : NydusImageVolume) : Bool :=
  decide (n.Config.length > 0 ∨ n.SnapshotDir.length > 0)

/-- The discriminated-union volume descriptor (struct `KataVirtualVolume`).
Pointer-typed payload fields are `Option`s (`none` = nil pointer). -/
structure KataVirtualVolume where
  VolumeType : GoStr
  Source : GoStr
  FSType : GoStr
  Options : List GoStr
  DirectVolume : Option DirectAssignedVolume
  ImagePull : Option ImagePullVolume
  NydusImage : Option NydusImageVolume
  DmVerity : Option DmVerityInfo
deriving DecidableEq, Repr

/-- `KataVirtualVolume.IsValid`: the switch over `k.VolumeType`. -/
def KataVirtualVolume.IsValid (k : KataVirtualVolume) : Bool :=
  if k.VolumeType = KataVirtualVolumeDirectBlockType then
    decide (k.Source ≠ []) &&
      (match k.DirectVolume with
       | some d => d.IsValid
       | none => false)
  else if k.VolumeType = KataVirtualVolumeImageRawBlockType ∨
          k.VolumeType = KataVirtualVolumeLayerRawBlockType then
    decide (k.Source ≠ []) &&
      (match k.DmVerity with
       | some dv => match dv.IsValid with | .ok _ => true | .error _ => false
       | none => true)
  else if k.VolumeType = KataVirtualVolumeImageNydusBlockType ∨
          k.VolumeType = KataVirtualVolumeLayerNydusBlockType ∨
          k.VolumeType = KataVirtualVolumeImageNydusFsType ∨
          k.VolumeType = KataVirtualVolumeLayerNydusFsType then
    decide (k.Source ≠ []) &&
      (match k.NydusImage with
       | some n => n.IsValid
       | none => false)
  else if k.VolumeType = KataVirtualVolumeImageGuestPullType then
    decide (k.Source ≠ []) &&
      (match k.ImagePull with
       | some i => i.IsValid
       | none => false)
  else false

/-- The validation-table condition of claim C1, written as the claim words it:
one clause per volume type, everything else invalid. -/
def volumeTableSpec (k : KataVirtualVolume) : Prop :=
  (k.VolumeType = strBytes "direct_block" ∧ k.Source ≠ [] ∧
     ∃ d, k.DirectVolume = some d ∧ d.Metadata ≠ none) ∨
  ((k.VolumeType = strBytes "image_raw_block" ∨ k.VolumeType = strBytes "layer_raw_block") ∧
     k.Source ≠ [] ∧
     (k.DmVerity = none ∨ ∃ dv, k.DmVerity = some dv ∧ dv.IsValid = .ok ())) ∨
  ((k.VolumeType = strBytes "image_nydus_block" ∨ k.VolumeType = strBytes "layer_nydus_block" ∨
    k.VolumeType = strBytes "image_nydus_fs" ∨ k.VolumeType = strBytes "layer_nydus_fs") ∧
     k.Source ≠ [] ∧
     ∃ n, k.NydusImage = some n ∧ (n.Config ≠ [] ∨ n.SnapshotDir ≠ [])) ∨
  (k.VolumeType = strBytes "image_guest_pull" ∧ k.Source ≠ [] ∧
     ∃ i, k.ImagePull = some i ∧ i.Metadata ≠ none)

/-- A descriptor accepted by `KataVirtualVolume.IsValid` that carries two
payload fields at once: a valid `direct_block` descriptor with an extra
`ImagePull` payload attached. -/
def twoPayloadVolume : KataVirtualVolume :=
  { VolumeType := KataVirtualVolumeDirectBlockType
    Source := strBytes "/dev/vda"
    FSType := []
    Options := []
    DirectVolume := some ⟨some []⟩
    ImagePull := some ⟨some []⟩
    NydusImage := none
    DmVerity := none }

/-- The payload obligation that `KataVirtualVolume.IsValid` actually enforces
for each accepted volume type: the payload designated by the type is present
and valid; nothing is required of the other payload fields. -/
def activePayloadOk (k : KataVirtualVolume) : Prop :=
  (k.VolumeType = KataVirtualVolumeDirectBlockType →
     ∃ d, k.DirectVolume = some d ∧ d.IsValid = true) ∧
  ((k.VolumeType = KataVirtualVolumeImageNydusBlockType ∨
    k.VolumeType = KataVirtualVolumeLayerNydusBlockType ∨
    k.VolumeType = KataVirtualVolumeImageNydusFsType ∨
    k.VolumeType = KataVirtualVolumeLayerNydusFsType) →
     ∃ n, k.NydusImage = some n ∧ n.IsValid = true) ∧
  (k.VolumeType = KataVirtualVolumeImageGuestPullType →
     ∃ i, k.ImagePull = some i ∧ i.IsValid = true)

/-! ### JSON values

Go's `encoding/json` works on byte strings; we model JSON documents as byte
lists and give the marshaller (printer) and unmarshaller (parser) the code
relies on.  Divergences from `encoding/json`, none of which the claims touch:
whitespace tolerance is modelled but `\r\n` forgiveness inside base64 isn't;
invalid UTF-8 is passed through rather than replaced with U+FFFD; a `\uXXXX`
escape is decoded as one code point without combining surrogate pairs; and
leading zeros in number literals are accepted. -/

inductive Json where
  | null
  | bool (b : Bool)
  | num (raw : List Nat)
  | str (s : List Nat)
  | arr (elements : List Json)
  | obj (fields : List (GoStr × Json))

/-- Hex digit byte (lowercase) for a value below 16. -/
def jHexDig (v : Nat) : Nat := if v < 10 then 48 + v else 97 + (v - 10)

/-- JSON escaping of one byte: `"` and `\\` get a backslash escape, control
bytes a `\u00XX` escape, and everything else passes through. -/
def jEscByte (b : Nat) : List Nat :=
  if b = 34 then [92, 34]
  else if b = 92 then [92, 92]
  else if b < 32 then [92, 117, 48, 48, jHexDig (b / 16), jHexDig (b % 16)]
  else [b]

/-- Rendered JSON string literal: quote, escaped bytes, quote. -/
def jsonEncStr (s : GoStr) : List Nat := 34 :: (s.flatMap jEscByte ++ [34])

/-- Decimal digit bytes of `n`, most significant first, prepended to `acc`. -/
def natDecAux (n : Nat) (acc : List Nat) : List Nat :=
  if n < 10 then (48 + n) :: acc else natDecAux (n / 10) ((48 + n % 10) :: acc)
termination_by n
decreasing_by omega

/-- Decimal digit bytes of `n`. -/
def natDec (n : Nat) : List Nat := natDecAux n []

mutual

/-- Render a JSON value to bytes (no interleaved whitespace, matching
`json.Marshal`). -/
def jsonEnc : Json → List Nat
  | .null => [110, 117, 108, 108]
  | .bool true => [116, 114, 117, 101]
  | .bool false => [102, 97, 108, 115, 101]
  | .num raw => raw
  | .str s => jsonEncStr s
  | .arr xs => 91 :: (jsonEncArr xs ++ [93])
  | .obj fs => 123 :: (jsonEncObj fs ++ [125])

/-- Render array elements, comma-separated. -/
def jsonEncArr : List Json → List Nat
  | [] => []
  | x :: xs => jsonEnc x ++ jsonEncArrTail xs

/-- Render the continuation of an array after its first element. -/
def jsonEncArrTail : List Json → List Nat
  | [] => []
  | x :: xs => 44 :: (jsonEnc x ++ jsonEncArrTail xs)

/-- Render object fields, comma-separated. -/
def jsonEncObj : List (GoStr × Json) → List Nat
  | [] => []
  | (k, v) :: fs => jsonEncStr k ++ 58 :: (jsonEnc v ++ jsonEncObjTail fs)

/-- Render the continuation of an object after its first field. -/
def jsonEncObjTail : List (GoStr × Json) → List Nat
  | [] => []
  | (k, v) :: fs => 44 :: (jsonEncStr k ++ 58 :: (jsonEnc v ++ jsonEncObjTail fs))

end

/-! ### JSON parsing -/

/-- JSON whitespace bytes: space, tab, newline, carriage return. -/
def isWsByte (b : Nat) : Bool := b == 32 || b == 9 || b == 10 || b == 13

/-- Skip leading whitespace. -/
def dropWs : List Nat → List Nat
  | b :: r => if isWsByte b then dropWs r else b :: r
  | [] => []

/-- ASCII decimal digit byte. -/
def isDigitByte (b : Nat) : Bool := decide (48 ≤ b ∧ b ≤ 57)

/-- Bytes a number literal may contain. -/
def isNumByte (b : Nat) : Bool :=
  isDigitByte b || b == 43 || b == 45 || b == 46 || b == 69 || b == 101

/-- Hex digit value of a byte. -/
def jHexVal (c : Nat) : Option Nat :=
  if 48 ≤ c ∧ c ≤ 57 then some (c - 48)
  else if 97 ≤ c ∧ c ≤ 102 then some (c - 97 + 10)
  else if 65 ≤ c ∧ c ≤ 70 then some (c - 65 + 10)
  else none

/-- Value of four hex digit bytes. -/
def jHex4 (a b c d : Nat) : Option Nat :=
  match jHexVal a, jHexVal b, jHexVal c, jHexVal d with
  | some va, some vb, some vc, some vd => some (((va * 16 + vb) * 16 + vc) * 16 + vd)
  | _, _, _, _ => none

/-- UTF-8 bytes of a code point below 2^16. -/
def utf8Enc (v : Nat) : List Nat :=
  if v < 128 then [v]
  else if v < 2048 then [192 + v / 64, 128 + v % 64]
  else [224 + v / 4096, 128 + v / 64 % 64, 128 + v % 64]

/-- Single-character JSON escapes. -/
def jUnescByte (e : Nat) : Option Nat :=
  if e = 34 then some 34 else if e = 92 then some 92 else if e = 47 then some 47
  else if e = 98 then some 8 else if e = 102 then some 12 else if e = 110 then some 10
  else if e = 114 then some 13 else if e = 116 then some 9 else none

/-- Parse the body of a string literal (after the opening quote), returning the
decoded bytes and the input after the closing quote. -/
def jpStrBody (input : List Nat) : Option (List Nat × List Nat) :=
  match input with
  | [] => none
  | b :: r =>
    if b = 34 then some ([], r)
    else if b = 92 then
      match r with
      | [] => none
      | e :: r2 =>
        if e = 117 then
          match r2 with
          | h1 :: h2 :: h3 :: h4 :: r3 =>
            match jHex4 h1 h2 h3 h4 with
            | none => none
            | some v => (jpStrBody r3).map (fun p => (utf8Enc v ++ p.1, p.2))
          | _ => none
        else
          match jUnescByte e with
          | none => none
          | some c => (jpStrBody r2).map (fun p => (c :: p.1, p.2))
    else if b < 32 then none
    else (jpStrBody r).map (fun p => (b :: p.1, p.2))
termination_by input.length
decreasing_by all_goals simp_arith

/-- Rest of the input after a non-empty digit run; `none` if no digit leads. -/
def digitRunRest (l : List Nat) : Option (List Nat) :=
  match l.span (fun b => isDigitByte b) with
  | (ds, r) => if ds = [] then none else some r

/-- Rest after an optional fraction part. -/
def fracRest : List Nat → Option (List Nat)
  | 46 :: r => digitRunRest r
  | l => some l

/-- Rest after an optional exponent part. -/
def expRest : List Nat → Option (List Nat)
  | b :: r =>
    if b = 69 ∨ b = 101 then
      match r with
      | s :: r2 => if s = 43 ∨ s = 45 then digitRunRest r2 else digitRunRest (s :: r2)
      | [] => none
    else some (b :: r)
  | [] => some []

/-- Strip one leading minus sign from a number token. -/
def stripSign (tok : List Nat) : List Nat :=
  match tok with
  | b :: r => if b = 45 then r else tok
  | [] => tok

/-- Shape check for a number literal: optional minus, digits, optional
fraction, optional exponent, nothing else. -/
def numTokOk (tok : List Nat) : Bool :=
  match digitRunRest (stripSign tok) with
  | none => false
  | some r1 =>
    match fracRest r1 with
    | none => false
    | some r2 =>
      match expRest r2 with
      | none => false
      | some r3 => r3 == []

mutual

/-- Parse one JSON value (fuel-bounded recursion). -/
def jsonDecVal : Nat → List Nat → Option (Json × List Nat)
  | 0, _ => none
  | fuel + 1, input =>
    match dropWs input with
    | [] => none
    | b :: r => jsonDecValAux fuel b r
termination_by fuel _ => 10 * fuel

/-- Dispatch on the first significant byte of a value. -/
def jsonDecValAux (fuel : Nat) (b : Nat) (r : List Nat) : Option (Json × List Nat) :=
  if b = 110 then
    match r with | 117 :: 108 :: 108 :: r2 => some (.null, r2) | _ => none
  else if b = 116 then
    match r with | 114 :: 117 :: 101 :: r2 => some (.bool true, r2) | _ => none
  else if b = 102 then
    match r with | 97 :: 108 :: 115 :: 101 :: r2 => some (.bool false, r2) | _ => none
  else if b = 34 then (jpStrBody r).map (fun p => (Json.str p.1, p.2))
  else if b = 91 then jsonDecArrStart fuel (dropWs r)
  else if b = 123 then jsonDecObjStart fuel (dropWs r)
  else if isDigitByte b || b = 45 then
    match (b :: r).span (fun x => isNumByte x) with
    | (tok, r2) => if numTokOk tok then some (.num tok, r2) else none
  else none
termination_by 10 * fuel + 9

/-- After `[`: empty array or first element. -/
def jsonDecArrStart : Nat → List Nat → Option (Json × List Nat)
  | _, [] => none
  | fuel, c :: r2 =>
    if c = 93 then some (.arr [], r2)
    else (jsonDecArr fuel (c :: r2)).map (fun p => (.arr p.1, p.2))
termination_by fuel _ => 10 * fuel + 5

/-- Parse one-or-more comma-separated array elements up to `]`. -/
def jsonDecArr : Nat → List Nat → Option (List Json × List Nat)
  | 0, _ => none
  | fuel + 1, input =>
    (jsonDecVal fuel input).bind (fun p => jsonDecArrCont fuel p.1 (dropWs p.2))
termination_by fuel _ => 10 * fuel + 4

/-- After an array element: `,` continues, `]` closes. -/
def jsonDecArrCont : Nat → Json → List Nat → Option (List Json × List Nat)
  | _, _, [] => none
  | fuel, v, c :: r2 =>
    if c = 44 then (jsonDecArr fuel r2).map (fun p => (v :: p.1, p.2))
    else if c = 93 then some ([v], r2)
    else none
termination_by fuel _ _ => 10 * fuel + 5

/-- After `{`: empty object or first field. -/
def jsonDecObjStart : Nat → List Nat → Option (Json × List Nat)
  | _, [] => none
  | fuel, c :: r2 =>
    if c = 125 then some (.obj [], r2)
    else (jsonDecObj fuel (c :: r2)).map (fun p => (.obj p.1, p.2))
termination_by fuel _ => 10 * fuel + 5

/-- Parse one-or-more comma-separated object fields up to `}`. -/
def jsonDecObj : Nat → List Nat → Option (List (GoStr × Json) × List Nat)
  | 0, _ => none
  | fuel + 1, input =>
    match dropWs input with
    | [] => none
    | b :: r =>
      if b = 34 then (jpStrBody r).bind (fun p => jsonDecObjVal fuel p.1 (dropWs p.2))
      else none
termination_by fuel _ => 10 * fuel + 4

/-- After a field key: expect `:` then the value. -/
def jsonDecObjVal : Nat → GoStr → List Nat → Option (List (GoStr × Json) × List Nat)
  | _, _, [] => none
  | fuel, k, c0 :: r2 =>
    if c0 = 58 then
      (jsonDecVal fuel r2).bind (fun q => jsonDecObjCont fuel k q.1 (dropWs q.2))
    else none
termination_by fuel _ _ => 10 * fuel + 6

/-- After a field value: `,` continues, `}` closes. -/
def jsonDecObjCont : Nat → GoStr → Json → List Nat → Option (List (GoStr × Json) × List Nat)
  | _, _, _, [] => none
  | fuel, k, v, c :: r4 =>
    if c = 44 then (jsonDecObj fuel r4).map (fun p => ((k, v) :: p.1, p.2))
    else if c = 125 then some ([(k, v)], r4)
    else none
termination_by fuel _ _ _ => 10 * fuel + 5

end

/-- Parse a complete JSON document: one value, then only whitespace. -/
def jsonParse (bs : List Nat) : Option Json :=
  match jsonDecVal (bs.length + 1) bs with
  | none => none
  | some (j, r) => if dropWs r = [] then some j else none

/-! ### Base64 (`base64.StdEncoding`)

Standard alphabet, mandatory `=` padding, padding only at the end.  (Go
additionally skips `\r` and `\n` inside the input; not modelled.) -/

/-- Alphabet byte of a 6-bit group. -/
def b64Char (v : Nat) : Nat :=
  if v < 26 then 65 + v
  else if v < 52 then 97 + (v - 26)
  else if v < 62 then 48 + (v - 52)
  else if v = 62 then 43
  else 47

/-- 6-bit value of an alphabet byte. -/
def b64Val (c : Nat) : Option Nat :=
  if 65 ≤ c ∧ c ≤ 90 then some (c - 65)
  else if 97 ≤ c ∧ c ≤ 122 then some (c - 97 + 26)
  else if 48 ≤ c ∧ c ≤ 57 then some (c - 48 + 52)
  else if c = 43 then some 62
  else if c = 47 then some 63
  else none

/-- `base64.StdEncoding.EncodeToString` on a byte list. -/
def b64EncodeList : List Nat → List Nat
  | [] => []
  | [x] => [b64Char (x / 4), b64Char (x % 4 * 16), 61, 61]
  | [x, y] => [b64Char (x / 4), b64Char (x % 4 * 16 + y / 16), b64Char (y % 16 * 4), 61]
  | x :: y :: z :: r =>
    b64Char (x / 4) :: b64Char (x % 4 * 16 + y / 16) ::
      b64Char (y % 16 * 4 + z / 64) :: b64Char (z % 64) :: b64EncodeList r

/-- `base64.StdEncoding.DecodeString` on a byte list: groups of four alphabet
bytes, the last group possibly padded; anything else is a decode error. -/
def b64DecodeList : List Nat → Option (List Nat)
  | [] => some []
  | a :: b :: c :: d :: r =>
    match b64Val a, b64Val b with
    | some va, some vb =>
      if d = 61 then
        if r ≠ [] then none
        else if c = 61 then some [va * 4 + vb / 16]
        else
          match b64Val c with
          | some vc => some [va * 4 + vb / 16, vb % 16 * 16 + vc / 4]
          | none => none
      else
        match b64Val c, b64Val d with
        | some vc, some vd =>
          (b64DecodeList r).map
            (fun rest => (va * 4 + vb / 16) :: (vb % 16 * 16 + vc / 4) :: (vc % 4 * 64 + vd) :: rest)
        | _, _ => none
    | _, _ => none
  | _ => none

/-! ### Marshalling `KataVirtualVolume` (struct tags of the source) -/

/-- JSON tag `volume_type`. -/
def tagVolumeType : GoStr := strBytes "volume_type"

/-- JSON tag `source`. -/
def tagSource : GoStr := strBytes "source"

/-- JSON tag `fs_type`. -/
def tagFsType : GoStr := strBytes "fs_type"

/-- JSON tag `options`. -/
def tagOptions : GoStr := strBytes "options"

/-- JSON tag `direct_volume`. -/
def tagDirectVolume : GoStr := strBytes "direct_volume"

/-- JSON tag `image_pull`. -/
def tagImagePull : GoStr := strBytes "image_pull"

/-- JSON tag `nydus_image`. -/
def tagNydusImage : GoStr := strBytes "nydus_image"

/-- JSON tag `dm_verity`. -/
def tagDmVerity : GoStr := strBytes "dm_verity"

/-- JSON tag `metadata`. -/
def tagMetadata : GoStr := strBytes "metadata"

/-- JSON tag `config`. -/
def tagConfig : GoStr := strBytes "config"

/-- JSON tag `snapshot_dir`. -/
def tagSnapshotDir : GoStr := strBytes "snapshot_dir"

/-- JSON tag `hashtype`. -/
def tagHashtype : GoStr := strBytes "hashtype"

/-- JSON tag `hash`. -/
def tagHash : GoStr := strBytes "hash"

/-- JSON tag `blocknum`. -/
def tagBlocknum : GoStr := strBytes "blocknum"

/-- JSON tag `blocksize`. -/
def tagBlocksize : GoStr := strBytes "blocksize"

/-- JSON tag `hashsize`. -/
def tagHashsize : GoStr := strBytes "hashsize"

/-- JSON tag `offset`. -/
def tagOffset : GoStr := strBytes "offset"

/-- Marshal a `map[string]string`: a nil map renders as `null`. (Go sorts map
keys when marshalling; the association-list model keeps entry order.) -/
def marshalMeta : Option (List (GoStr × GoStr)) → Json
  | none => .null
  | some l => .obj (l.map (fun p => (p.1, .str p.2)))

/-- Marshal a `DirectAssignedVolume` (field `metadata`, no omitempty). -/
def marshalDirect (d : DirectAssignedVolume) : Json :=
  .obj [(tagMetadata, marshalMeta d.Metadata)]

/-- Marshal an `ImagePullVolume` (field `metadata`, no omitempty). -/
def marshalImagePull (i : ImagePullVolume) : Json :=
  .obj [(tagMetadata, marshalMeta i.Metadata)]

/-- Marshal a `NydusImageVolume` (fields `config`, `snapshot_dir`). -/
def marshalNydusImage (n : NydusImageVolume) : Json :=
  .obj [(tagConfig, .str n.Config), (tagSnapshotDir, .str n.SnapshotDir)]

/-- Marshal a `DmVerityInfo` (six fields, no omitempty). -/
def marshalDmVerity (d : DmVerityInfo) : Json :=
  .obj [(tagHashtype, .str d.HashType), (tagHash, .str d.Hash),
        (tagBlocknum, .num (natDec d.BlockNum)), (tagBlocksize, .num (natDec d.Blocksize)),
        (tagHashsize, .num (natDec d.Hashsize)), (tagOffset, .num (natDec d.Offset))]

/-- Field segment for `volume_type` (no omitempty: always emitted). -/
def mfVolumeType (v : KataVirtualVolume) : List (GoStr × Json) :=
  [(tagVolumeType, .str v.VolumeType)]

/-- Field segment for `source,omitempty`. -/
def mfSource (v : KataVirtualVolume) : List (GoStr × Json) :=
  if v.Source = [] then [] else [(tagSource, .str v.Source)]

/-- Field segment for `fs_type,omitempty`. -/
def mfFSType (v : KataVirtualVolume) : List (GoStr × Json) :=
  if v.FSType = [] then [] else [(tagFsType, .str v.FSType)]

/-- Field segment for `options,omitempty` (a nil or empty slice is omitted;
the model merges nil and empty slices). -/
def mfOptions (v : KataVirtualVolume) : List (GoStr × Json) :=
  if v.Options = [] then [] else [(tagOptions, .arr (v.Options.map Json.str))]

/-- Field segment for `direct_volume,omitempty` (nil pointer omitted). -/
def mfDirectVolume (v : KataVirtualVolume) : List (GoStr × Json) :=
  match v.DirectVolume with
  | none => []
  | some d => [(tagDirectVolume, marshalDirect d)]

/-- Field segment for `image_pull,omitempty`. -/
def mfImagePull (v : KataVirtualVolume) : List (GoStr × Json) :=
  match v.ImagePull with
  | none => []
  | some i => [(tagImagePull, marshalImagePull i)]

/-- Field segment for `nydus_image,omitempty`. -/
def mfNydusImage (v : KataVirtualVolume) : List (GoStr × Json) :=
  match v.NydusImage with
  | none => []
  | some n => [(tagNydusImage, marshalNydusImage n)]

/-- Field segment for `dm_verity,omitempty`. -/
def mfDmVerity (v : KataVirtualVolume) : List (GoStr × Json) :=
  match v.DmVerity with
  | none => []
  | some d => [(tagDmVerity, marshalDmVerity d)]

/-- All marshalled fields of a `KataVirtualVolume`, in struct order. -/
def mFields (v : KataVirtualVolume) : List (GoStr × Json) :=
  mfVolumeType v ++ mfSource v ++ mfFSType v ++ mfOptions v ++
    mfDirectVolume v ++ mfImagePull v ++ mfNydusImage v ++ mfDmVerity v

/-- `json.Marshal` of a `KataVirtualVolume`. -/
def marshalKataVirtualVolume (v : KataVirtualVolume) : Json := .obj (mFields v)

/-! ### Unmarshalling (`json.Unmarshal` into the structs)

Go matches JSON keys to struct tags case-insensitively and lets the last
occurrence of a key win; absent keys leave the zero value; an explicit `null`
leaves the zero value (strings, slices) or the nil pointer/map. -/

/-- Last JSON object field whose key case-insensitively matches `tag`. -/
def jLookup (tag : GoStr) (fs : List (GoStr × Json)) : Option Json :=
  fs.foldl (fun acc p => if toLowerStr p.1 = tag then some p.2 else acc) none

/-- Unmarshal a string-typed struct field. -/
def getStrField (fs : List (GoStr × Json)) (tag : GoStr) : Option GoStr :=
  match jLookup tag fs with
  | none => some []
  | some .null => some []
  | some (.str s) => some s
  | some _ => none

/-- Unmarshal one `[]string` element (`null` leaves the zero string). -/
def strElem : Json → Option GoStr
  | .str s => some s
  | .null => some ([] : GoStr)
  | _ => none

/-- Unmarshal a `[]string` struct field. -/
def getStrListField (fs : List (GoStr × Json)) (tag : GoStr) : Option (List GoStr) :=
  match jLookup tag fs with
  | none => some []
  | some .null => some []
  | some (.arr xs) => xs.mapM strElem
  | some _ => none

/-- Numeric value of a digit-byte list. -/
def decDigitsVal (tok : List Nat) : Nat :=
  tok.foldl (fun a b => a * 10 + (b - 48)) 0

/-- Unmarshal a number literal into `uint64`: plain digits, below `2^64`. -/
def u64TokVal (tok : List Nat) : Option Nat :=
  if tok ≠ [] ∧ tok.all isDigitByte = true ∧ decDigitsVal tok < U64 then
    some (decDigitsVal tok)
  else none

/-- Unmarshal a `uint64` struct field. -/
def getU64Field (fs : List (GoStr × Json)) (tag : GoStr) : Option Nat :=
  match jLookup tag fs with
  | none => some 0
  | some .null => some 0
  | some (.num tok) => u64TokVal tok
  | some _ => none

/-- Unmarshal one metadata map entry (string value; `null` leaves zero). -/
def metaEntry (p : GoStr × Json) : Option (GoStr × GoStr) :=
  match p.2 with
  | .str s => some (p.1, s)
  | .null => some (p.1, ([] : GoStr))
  | _ => none

/-- Unmarshal a `map[string]string` struct field (`null`/absent give nil). -/
def getMapField (fs : List (GoStr × Json)) (tag : GoStr) :
    Option (Option (List (GoStr × GoStr))) :=
  match jLookup tag fs with
  | none => some none
  | some .null => some none
  | some (.obj gs) => (gs.mapM metaEntry).map some
  | some _ => none

/-- Unmarshal a pointer-typed struct field through `f` (`null`/absent = nil). -/
def getPtrField {α : Type} (fs : List (GoStr × Json)) (tag : GoStr)
    (f : Json → Option α) : Option (Option α) :=
  match jLookup tag fs with
  | none => some none
  | some .null => some none
  | some j => (f j).map some

/-- Unmarshal a `DirectAssignedVolume` value. -/
def unmarshalDirect : Json → Option DirectAssignedVolume
  | .obj gs => (getMapField gs tagMetadata).map (fun m => ⟨m⟩)
  | .null => some ⟨none⟩
  | _ => none

/-- Unmarshal an `ImagePullVolume` value. -/
def unmarshalImagePull : Json → Option ImagePullVolume
  | .obj gs => (getMapField gs tagMetadata).map (fun m => ⟨m⟩)
  | .null => some ⟨none⟩
  | _ => none

/-- Unmarshal a `NydusImageVolume` value. -/
def unmarshalNydusImage : Json → Option NydusImageVolume
  | .obj gs =>
    match getStrField gs tagConfig, getStrField gs tagSnapshotDir with
    | some c, some sd => some ⟨c, sd⟩
    | _, _ => none
  | .null => some ⟨[], []⟩
  | _ => none

/-- Unmarshal a `DmVerityInfo` value. -/
def unmarshalDmVerity : Json → Option DmVerityInfo
  | .obj gs =>
    match getStrField gs tagHashtype, getStrField gs tagHash,
          getU64Field gs tagBlocknum, getU64Field gs tagBlocksize,
          getU64Field gs tagHashsize, getU64Field gs tagOffset with
    | some ht, some h, some bn, some bs, some hs, some off => some ⟨ht, h, bn, bs, hs, off⟩
    | _, _, _, _, _, _ => none
  | .null => some ⟨[], [], 0, 0, 0, 0⟩
  | _ => none

/-- The zero `KataVirtualVolume` value. -/
def KataVirtualVolume.zero : KataVirtualVolume := ⟨[], [], [], [], none, none, none, none⟩

/-- `json.Unmarshal` into a `KataVirtualVolume` (a top-level `null` leaves the
zero value; a non-object document is a type error). -/
def unmarshalKVV : Json → Option KataVirtualVolume
  | .null => some .zero
  | .obj fs =>
    match getStrField fs tagVolumeType, getStrField fs tagSource,
          getStrField fs tagFsType, getStrListField fs tagOptions,
          getPtrField fs tagDirectVolume unmarshalDirect,
          getPtrField fs tagImagePull unmarshalImagePull,
          getPtrField fs tagNydusImage unmarshalNydusImage,
          getPtrField fs tagDmVerity unmarshalDmVerity with
    | some vt, some src, some fst, some opts, some dv, some ip, some ni, some dm =>
      some ⟨vt, src, fst, opts, dv, ip, ni, dm⟩
    | _, _, _, _, _, _, _, _ => none
  | _ => none

/-! ### The codec entry points -/

/-- The three failure kinds of the decode pipeline: base64 decode error, JSON
unmarshal error, validation failure. -/
inductive KvErr where
  | base64Decode
  | jsonUnmarshal
  | validation
deriving DecidableEq, Repr

/-- `ParseKataVirtualVolume`: unmarshal, then validate. -/
def ParseKataVirtualVolume (option : List Nat) : Except KvErr KataVirtualVolume :=
  match jsonParse option with
  | none => .error .jsonUnmarshal
  | some j =>
    match unmarshalKVV j with
    | none => .error .jsonUnmarshal
    | some no => if no.IsValid then .ok no else .error .validation

/-- `ParseKataVirtualVolumeFromBase64`: base64-decode, then parse. -/
def ParseKataVirtualVolumeFromBase64 (option : GoStr) : Except KvErr KataVirtualVolume :=
  match b64DecodeList option with
  | none => .error .base64Decode
  | some opt => ParseKataVirtualVolume opt

/-- `EncodeKataVirtualVolumeToBase64`: marshal, then base64-encode.  Encoding
never fails (`json.Marshal` cannot fail on this type); the `Except` mirrors
the Go signature. -/
def EncodeKataVirtualVolumeToBase64 (volume : KataVirtualVolume) : Except KvErr GoStr :=
  .ok (b64EncodeList (jsonEnc (marshalKataVirtualVolume volume)))

/-! ### Representability of Go values

The `Nat`/`List Nat` model is wider than Go's types: `bytesOk` says a string's
elements are bytes, `KataVirtualVolume.ReprOk` that a descriptor is the image
of a Go value (byte strings, `uint64` fields below `2^64`). -/

/-- Every element of the string is a byte. -/
def bytesOk (s : GoStr) : Prop := ∀ b ∈ s, b < 256

instance (s : GoStr) : Decidable (bytesOk s) := by
  unfold bytesOk
  infer_instance

/-- Byte-validity of a modelled `map[string]string`. -/
def metaOk (m : Option (List (GoStr × GoStr))) : Prop :=
  ∀ l, m = some l → ∀ p ∈ l, bytesOk p.1 ∧ bytesOk p.2

/-- Byte-validity of a modelled `DmVerityInfo`, with `uint64` ranges. -/
def DmVerityInfo.ReprOk (d : DmVerityInfo) : Prop :=
  bytesOk d.HashType ∧ bytesOk d.Hash ∧ d.BlockNum < U64 ∧ d.Blocksize < U64 ∧
    d.Hashsize < U64 ∧ d.Offset < U64

/-- The descriptor is the image of a Go `KataVirtualVolume` value. -/
def KataVirtualVolume.ReprOk (v : KataVirtualVolume) : Prop :=
  bytesOk v.VolumeType ∧ bytesOk v.Source ∧ bytesOk v.FSType ∧
    (∀ o ∈ v.Options, bytesOk o) ∧
    (∀ d, v.DirectVolume = some d → metaOk d.Metadata) ∧
    (∀ i, v.ImagePull = some i → metaOk i.Metadata) ∧
    (∀ n, v.NydusImage = some n → bytesOk n.Config ∧ bytesOk n.SnapshotDir) ∧
    (∀ d, v.DmVerity = some d → d.ReprOk)

/-- The JSON keys `json.Unmarshal` recognizes on `KataVirtualVolume`
(case-insensitively, as Go matches them). -/
def recognizedKVVKey (k : GoStr) : Bool :=
  toLowerStr k = tagVolumeType ∨ toLowerStr k = tagSource ∨ toLowerStr k = tagFsType ∨
    toLowerStr k = tagOptions ∨ toLowerStr k = tagDirectVolume ∨
    toLowerStr k = tagImagePull ∨ toLowerStr k = tagNydusImage ∨ toLowerStr k = tagDmVerity

/-! ### The Mount Option Assembler (`remoteMountWithExtraOptions`)

The collaborators the function calls — `o.fs.BootstrapFile`, the rafs
instance cache, `o.fs.GetDaemonByID`, `daemonconfig.NewDaemonConfig`,
`DumpString`, `os.Open`/`Read`, `layout.DetectFsVersion`, `o.snapshotDir` —
are external to this file, so the model takes their outcomes as inputs.
Error kinds follow §7: collaborator failures are passed through
(`external`), the open/read failures are IO errors, a detector failure is a
format error. -/

/-- Extra mount option record (struct `ExtraOption`). -/
structure ExtraOption where
  Source : GoStr
  Config : GoStr
  Snapshotdir : GoStr
  Version : GoStr
deriving DecidableEq, Repr

/-- JSON tag `snapshotdir`. -/
def tagSnapshotdir : GoStr := strBytes "snapshotdir"

/-- JSON tag `fs_version`. -/
def tagFsVersion : GoStr := strBytes "fs_version"

/-- `json.Marshal` of an `ExtraOption` (four fields, no omitempty, in struct
order: `source`, `config`, `snapshotdir`, `fs_version`). -/
def marshalExtraOption (e : ExtraOption) : Json :=
  .obj [(tagSource, .str e.Source), (tagConfig, .str e.Config),
        (tagSnapshotdir, .str e.Snapshotdir), (tagFsVersion, .str e.Version)]

/-- Error kinds surfaced by the assembler. -/
inductive MountErr where
  | external
  | ioOpen
  | ioRead
  | format
deriving DecidableEq, Repr

/-- A daemon configuration, reduced to the outcome of `DumpString`. -/
structure DaemonConfigM where
  dump : Except Unit GoStr
deriving Repr

/-- The daemon collaborator: shared flag, per-instance configuration load
outcome (`daemonconfig.NewDaemonConfig`), own configuration. -/
structure DaemonM where
  isShared : Bool
  sharedConfig : Except Unit DaemonConfigM
  ownConfig : DaemonConfigM
deriving Repr

/-- The collaborator outcomes a single `remoteMountWithExtraOptions` call
observes.  `fileContents = none` models a failing `os.Open`; `some bytes`
the bootstrap file's contents. -/
structure SnapshotterEnv where
  bootstrapFile : Except Unit GoStr
  getDaemon : Except Unit DaemonM
  fileContents : Option (List Nat)
  detectFsVersion : List Nat → Except Unit GoStr
  snapshotDir : GoStr

/-- A containerd mount entry (fields `Type`, `Source`, `Options`; `Type` is a
Lean keyword, hence `MountType`). -/
structure Mount where
  MountType : GoStr
  Source : GoStr
  Options : List GoStr
deriving DecidableEq, Repr

/-- Steps 4-7 of `remoteMountWithExtraOptions`: open and read the bootstrap
file, detect the version, build the `ExtraOption` and the mount entry.  A
first `Read` on an empty file returns `(0, io.EOF)`, which the code treats as
a read failure; otherwise the version detector runs on the at-most-4096 bytes
actually read. -/
def remoteMountReadStage (o : SnapshotterEnv) (overlayOptions : List GoStr)
    (source configContent : GoStr) : Except MountErr (List Mount) :=
  match o.fileContents with
  | none => .error .ioOpen
  | some contents =>
    if contents = [] then .error .ioRead
    else
      match o.detectFsVersion (contents.take (min 4096 contents.length)) with
      | .error _ => .error .format
      | .ok version =>
        .ok [⟨strBytes "fuse.nydus-overlayfs", strBytes "overlay",
          overlayOptions ++ [strBytes "extraoption=" ++ b64EncodeList (jsonEnc
            (marshalExtraOption ⟨source, configContent, o.snapshotDir, version⟩))]⟩]

/-- Steps 2-3: resolve the daemon configuration (per-instance when shared)
and serialize it. -/
def remoteMountConfigStage (o : SnapshotterEnv) (overlayOptions : List GoStr)
    (source : GoStr) (daemon : DaemonM) : Except MountErr (List Mount) :=
  match (if daemon.isShared then daemon.sharedConfig else .ok daemon.ownConfig) with
  | .error _ => .error .external
  | .ok c =>
    match c.dump with
    | .error _ => .error .external
    | .ok configContent => remoteMountReadStage o overlayOptions source configContent

/-- `remoteMountWithExtraOptions`: resolve the bootstrap path and the daemon,
then continue with the configuration and read stages. -/
def remoteMountWithExtraOptions (o : SnapshotterEnv) (overlayOptions : List GoStr) :
    Except MountErr (List Mount) :=
  match o.bootstrapFile with
  | .error _ => .error .external
  | .ok source =>
    match o.getDaemon with
    | .error _ => .error .external
    | .ok daemon => remoteMountConfigStage o overlayOptions source daemon

/-- Byte-validity of the strings an environment can hand the assembler. -/
def SnapshotterEnv.ReprOk (o : SnapshotterEnv) : Prop :=
  (∀ s, o.bootstrapFile = .ok s → bytesOk s) ∧
    (∀ d cfg s, o.getDaemon = .ok d →
       (cfg = d.ownConfig ∨ d.sharedConfig = .ok cfg) → cfg.dump = .ok s → bytesOk s) ∧
    bytesOk o.snapshotDir ∧
    (∀ bs v, o.detectFsVersion bs = .ok v → bytesOk v)

/-- The §8 guest-pull descriptor: `source: "img"`, `image_pull: {metadata: {}}`. -/
def sampleVolume : KataVirtualVolume :=
  { VolumeType := KataVirtualVolumeImageGuestPullType
    Source := strBytes "img"
    FSType := []
    Options := []
    DirectVolume := none
    ImagePull := some ⟨some []⟩
    NydusImage := none
    DmVerity := none }

/-- A collaborator environment on which the assembler succeeds: every stage
returns a value and the bootstrap file holds one byte. -/
def sampleEnv : SnapshotterEnv :=
  { bootstrapFile := .ok (strBytes "/b")
    getDaemon := .ok ⟨false, .error (), ⟨.ok (strBytes "cfg")⟩⟩
    fileContents := some [0]
    detectFsVersion := fun _ => .ok (strBytes "v6")
    snapshotDir := strBytes "/sd" }

/-- A descriptor with an unknown volume type: representable but invalid. -/
def bogusVolume : KataVirtualVolume :=
  { VolumeType := strBytes "bogus"
    Source := strBytes "/dev/vda"
    FSType := []
    Options := []
    DirectVolume := none
    ImagePull := none
    NydusImage := none
    DmVerity := none }

mutual

/-- A `Json` value in the image of the Go marshaller: number tokens are
non-empty digit runs, strings and keys are byte sequences. -/
def jsonWf : Json → Bool
  | .null => true
  | .bool _ => true
  | .num raw => decide (raw ≠ []) && raw.all isDigitByte
  | .str s => s.all (fun b => decide (b < 256))
  | .arr xs => jsonWfList xs
  | .obj fs => jsonWfFields fs

/-- `jsonWf` over the elements of an array. -/
def jsonWfList : List Json → Bool
  | [] => true
  | x :: xs => jsonWf x && jsonWfList xs

/-- `jsonWf` over the fields of an object. -/
def jsonWfFields : List (GoStr × Json) → Bool
  | [] => true
  | (k, v) :: fs => k.all (fun b => decide (b < 256)) && jsonWf v && jsonWfFields fs

end

/-- Input that cannot extend a rendered value: empty, or starting with a
separator (`,`, `]`, `}`). -/
def jDelimB : List Nat → Bool
  | [] => true
  | c :: _ => c == 44 || c == 93 || c == 125

/-! ## Theorems -/

/-- C1: `KataVirtualVolume.IsValid` accepts a descriptor exactly when the
validation-table condition for its volume type holds — `direct_block` needs a
non-empty source and a present `DirectVolume` with non-nil metadata; the two
raw-block types need a non-empty source and an absent or valid verity
descriptor; the four nydus types need a non-empty source and a present
`NydusImage` with non-empty config or snapshot directory; `image_guest_pull`
needs a non-empty source and a present `ImagePull` with non-nil metadata; and
every other volume type is invalid. -/
theorem kataVirtualVolume_isValid_iff_table (k : KataVirtualVolume) :
    k.IsValid = true ↔ volumeTableSpec k := by
  unfold KataVirtualVolume.IsValid volumeTableSpec
  by_cases h1 : k.VolumeType = KataVirtualVolumeDirectBlockType
  · rw [if_pos h1]
    constructor
    · intro h
      rw [Bool.and_eq_true, decide_eq_true_iff] at h
      obtain ⟨hsrc, hpay⟩ := h
      cases hd : k.DirectVolume with
      | none => rw [hd] at hpay; exact absurd hpay (by simp)
      | some d =>
        rw [hd] at hpay
        refine Or.inl ⟨h1, hsrc, d, rfl, ?_⟩
        simpa [DirectAssignedVolume.IsValid, Option.isSome_iff_ne_none] using hpay
    · intro h
      rcases h with ⟨_, hsrc, d, hd, hmeta⟩ | ⟨hvt, _, _⟩ | ⟨hvt, _, _⟩ | ⟨hvt, _, _⟩
      · rw [Bool.and_eq_true, decide_eq_true_iff, hd]
        exact ⟨hsrc, by simpa [DirectAssignedVolume.IsValid, Option.isSome_iff_ne_none]⟩
      · rw [h1] at hvt; rcases hvt with hvt | hvt <;> exact absurd hvt (by decide)
      · rw [h1] at hvt
        rcases hvt with hvt | hvt | hvt | hvt <;> exact absurd hvt (by decide)
      · rw [h1] at hvt; exact absurd hvt (by decide)
  · rw [if_neg h1]
    by_cases h2 : k.VolumeType = KataVirtualVolumeImageRawBlockType ∨
        k.VolumeType = KataVirtualVolumeLayerRawBlockType
    · rw [if_pos h2]
      constructor
      · intro h
        rw [Bool.and_eq_true, decide_eq_true_iff] at h
        obtain ⟨hsrc, hpay⟩ := h
        refine Or.inr (Or.inl ⟨h2, hsrc, ?_⟩)
        cases hd : k.DmVerity with
        | none => exact Or.inl rfl
        | some dv =>
          rw [hd] at hpay
          refine Or.inr ⟨dv, rfl, ?_⟩
          cases hdv : dv.IsValid with
          | ok u => cases u; rfl
          | error e => simp [hdv] at hpay
      · intro h
        rcases h with ⟨hvt, _, _⟩ | ⟨_, hsrc, hver⟩ | ⟨hvt, _, _⟩ | ⟨hvt, _, _⟩
        · exact absurd hvt h1
        · rw [Bool.and_eq_true, decide_eq_true_iff]
          refine ⟨hsrc, ?_⟩
          rcases hver with hnone | ⟨dv, hdv, hok⟩
          · rw [hnone]
          · simp [hdv, hok]
        · rcases h2 with h2 | h2 <;> rw [h2] at hvt <;>
            rcases hvt with hvt | hvt | hvt | hvt <;> exact absurd hvt (by decide)
        · rcases h2 with h2 | h2 <;> rw [h2] at hvt <;> exact absurd hvt (by decide)
    · rw [if_neg h2]
      by_cases h3 : k.VolumeType = KataVirtualVolumeImageNydusBlockType ∨
          k.VolumeType = KataVirtualVolumeLayerNydusBlockType ∨
          k.VolumeType = KataVirtualVolumeImageNydusFsType ∨
          k.VolumeType = KataVirtualVolumeLayerNydusFsType
      · rw [if_pos h3]
        constructor
        · intro h
          rw [Bool.and_eq_true, decide_eq_true_iff] at h
          obtain ⟨hsrc, hpay⟩ := h
          cases hn : k.NydusImage with
          | none => rw [hn] at hpay; exact absurd hpay (by simp)
          | some n =>
            rw [hn] at hpay
            refine Or.inr (Or.inr (Or.inl ⟨h3, hsrc, n, rfl, ?_⟩))
            simpa [NydusImageVolume.IsValid, List.length_pos] using hpay
        · intro h
          rcases h with ⟨hvt, _, _⟩ | ⟨hvt, _, _⟩ | ⟨_, hsrc, n, hn, hcfg⟩ | ⟨hvt, _, _⟩
          · exact absurd hvt h1
          · exact absurd hvt h2
          · rw [Bool.and_eq_true, decide_eq_true_iff, hn]
            exact ⟨hsrc, by simpa [NydusImageVolume.IsValid, List.length_pos]⟩
          · rcases h3 with h3 | h3 | h3 | h3 <;> rw [h3] at hvt <;> exact absurd hvt (by decide)
      · rw [if_neg h3]
        by_cases h4 : k.VolumeType = KataVirtualVolumeImageGuestPullType
        · rw [if_pos h4]
          constructor
          · intro h
            rw [Bool.and_eq_true, decide_eq_true_iff] at h
            obtain ⟨hsrc, hpay⟩ := h
            cases hi : k.ImagePull with
            | none => rw [hi] at hpay; exact absurd hpay (by simp)
            | some i =>
              rw [hi] at hpay
              refine Or.inr (Or.inr (Or.inr ⟨h4, hsrc, i, rfl, ?_⟩))
              simpa [ImagePullVolume.IsValid, Option.isSome_iff_ne_none] using hpay
          · intro h
            rcases h with ⟨hvt, _, _⟩ | ⟨hvt, _, _⟩ | ⟨hvt, _, _⟩ | ⟨_, hsrc, i, hi, hmeta⟩
            · exact absurd hvt h1
            · exact absurd hvt h2
            · exact absurd hvt h3
            · rw [Bool.and_eq_true, decide_eq_true_iff, hi]
              exact ⟨hsrc, by simpa [ImagePullVolume.IsValid, Option.isSome_iff_ne_none]⟩
        · rw [if_neg h4]
          constructor
          · intro h; exact absurd h (by simp)
          · intro h
            rcases h with ⟨hvt, _, _⟩ | ⟨hvt, _, _⟩ | ⟨hvt, _, _⟩ | ⟨hvt, _, _⟩
            · exact absurd hvt h1
            · exact absurd hvt h2
            · exact absurd hvt h3
            · exact absurd hvt h4

/-- C2: `DmVerityInfo.IsValid` decides exactly the five §4.2 rules in order
with first-failure reporting (`verityRulesSpec` restates them word for word),
and on the §8 vector — sha256, a 64-hex-char hash, 100 blocks of 4096 bytes,
hash block size 4096, offset 409600 — it accepts, while offset 409601 fails
the offset rule, hash type md5 fails the algorithm rule, and block size 256
fails the block-size rule. -/
theorem dmVerityInfo_isValid_eq_rules :
    (∀ d : DmVerityInfo, d.IsValid = verityRulesSpec d) ∧
      ({ HashType := strBytes "sha256", Hash := List.replicate 64 97, BlockNum := 100,
         Blocksize := 4096, Hashsize := 4096, Offset := 409600 } : DmVerityInfo).IsValid =
        .ok () ∧
      ({ HashType := strBytes "sha256", Hash := List.replicate 64 97, BlockNum := 100,
         Blocksize := 4096, Hashsize := 4096, Offset := 409601 } : DmVerityInfo).IsValid =
        .error .invalidOffset ∧
      ({ HashType := strBytes "md5", Hash := List.replicate 64 97, BlockNum := 100,
         Blocksize := 4096, Hashsize := 4096, Offset := 409600 } : DmVerityInfo).IsValid =
        .error .unsupportedAlgorithm ∧
      ({ HashType := strBytes "sha256", Hash := List.replicate 64 97, BlockNum := 100,
         Blocksize := 256, Hashsize := 4096, Offset := 409600 } : DmVerityInfo).IsValid =
        .error .invalidBlockSize := by
  refine ⟨?_, rfl, rfl, rfl, rfl⟩
  intro d
  have hrest :
      (if d.BlockNum = 0 ∨ d.BlockNum > 2 ^ 32 - 1 then
         (Except.error VerityErr.invalidBlockCount : Except VerityErr Unit)
       else if ¬(isValidBlockSize d.Blocksize = true ∧ isValidBlockSize d.Hashsize = true) then
         .error .invalidBlockSize
       else if ¬(d.Offset % d.Hashsize = 0) ∨ d.Offset < (d.Blocksize * d.BlockNum) % U64 then
         .error .invalidOffset
       else .ok ()) =
      (if ¬(1 ≤ d.BlockNum ∧ d.BlockNum ≤ 2 ^ 32 - 1) then
         (Except.error VerityErr.invalidBlockCount : Except VerityErr Unit)
       else if ¬(minBlockSize ≤ d.Blocksize ∧ d.Blocksize ≤ maxBlockSize ∧
                 minBlockSize ≤ d.Hashsize ∧ d.Hashsize ≤ maxBlockSize) then
         .error .invalidBlockSize
       else if ¬(d.Offset % d.Hashsize = 0 ∧ d.Blocksize * d.BlockNum ≤ d.Offset) then
         .error .invalidOffset
       else .ok ()) := by
    by_cases hc : d.BlockNum = 0 ∨ d.BlockNum > 2 ^ 32 - 1
    · have hc2 : ¬(1 ≤ d.BlockNum ∧ d.BlockNum ≤ 2 ^ 32 - 1) := by omega
      rw [if_pos hc, if_pos hc2]
    · have hc2 : ¬¬(1 ≤ d.BlockNum ∧ d.BlockNum ≤ 2 ^ 32 - 1) := by push_neg; omega
      rw [if_neg hc, if_neg hc2]
      by_cases hs : isValidBlockSize d.Blocksize = true ∧ isValidBlockSize d.Hashsize = true
      · have hb := hs.1
        have hh := hs.2
        rw [isValidBlockSize, decide_eq_true_iff] at hb hh
        have hs2 : ¬¬(minBlockSize ≤ d.Blocksize ∧ d.Blocksize ≤ maxBlockSize ∧
            minBlockSize ≤ d.Hashsize ∧ d.Hashsize ≤ maxBlockSize) := by
          push_neg
          exact ⟨hb.1, hb.2, hh.1, hh.2⟩
        rw [if_neg (not_not_intro hs), if_neg hs2]
        have hprod : d.Blocksize * d.BlockNum < U64 := by
          have h1 : d.Blocksize * d.BlockNum ≤ 2 ^ 19 * (2 ^ 32 - 1) :=
            Nat.mul_le_mul hb.2 (by omega)
          have h2 : (2 : Nat) ^ 19 * (2 ^ 32 - 1) < U64 := by norm_num [U64]
          omega
        rw [Nat.mod_eq_of_lt hprod]
        by_cases ho : d.Offset % d.Hashsize = 0 ∧ d.Blocksize * d.BlockNum ≤ d.Offset
        · have ho1 : ¬(¬(d.Offset % d.Hashsize = 0) ∨ d.Offset < d.Blocksize * d.BlockNum) := by
            push_neg
            exact ⟨ho.1, ho.2⟩
          rw [if_neg ho1, if_neg (not_not_intro ho)]
        · have hside : ¬(d.Offset % d.Hashsize = 0) ∨ d.Offset < d.Blocksize * d.BlockNum := by
            by_cases hmod : d.Offset % d.Hashsize = 0
            · push_neg at ho; exact Or.inr (ho hmod)
            · exact Or.inl hmod
          rw [if_pos hside, if_pos ho]
      · have hbounds : ¬(minBlockSize ≤ d.Blocksize ∧ d.Blocksize ≤ maxBlockSize ∧
            minBlockSize ≤ d.Hashsize ∧ d.Hashsize ≤ maxBlockSize) := fun hb =>
          hs ⟨by rw [isValidBlockSize, decide_eq_true_iff]; exact ⟨hb.1, hb.2.1⟩,
              by rw [isValidBlockSize, decide_eq_true_iff]; exact ⟨hb.2.2.1, hb.2.2.2⟩⟩
        rw [if_pos hs, if_pos hbounds]
  by_cases hA : toLowerStr d.HashType = strBytes "sha256"
  · by_cases hH : d.Hash.length = 64 ∧ hexDecodeOk d.Hash = true
    · have hok : d.validateHashType = .ok () := by
        unfold DmVerityInfo.validateHashType DmVerityInfo.isValidHash
        rw [if_pos hA, if_pos hH]
      have lhs : d.IsValid =
          (if d.BlockNum = 0 ∨ d.BlockNum > 2 ^ 32 - 1 then
             (Except.error VerityErr.invalidBlockCount : Except VerityErr Unit)
           else if ¬(isValidBlockSize d.Blocksize = true ∧ isValidBlockSize d.Hashsize = true) then
             .error .invalidBlockSize
           else if ¬(d.Offset % d.Hashsize = 0) ∨
               d.Offset < (d.Blocksize * d.BlockNum) % U64 then
             .error .invalidOffset
           else .ok ()) := by
        unfold DmVerityInfo.IsValid
        rw [hok]
      rw [lhs, hrest]
      unfold verityRulesSpec
      rw [if_pos (Or.inl hA), if_pos hA, if_neg (not_not_intro hH)]
    · have herr : d.validateHashType = .error .invalidHash := by
        unfold DmVerityInfo.validateHashType DmVerityInfo.isValidHash
        rw [if_pos hA, if_neg hH]
      have lhs : d.IsValid = .error .invalidHash := by
        unfold DmVerityInfo.IsValid
        rw [herr]
      rw [lhs]
      unfold verityRulesSpec
      rw [if_pos (Or.inl hA), if_pos hA, if_pos hH]
  · by_cases hB : toLowerStr d.HashType = strBytes "sha1"
    · by_cases hH : d.Hash.length = 40 ∧ hexDecodeOk d.Hash = true
      · have hok : d.validateHashType = .ok () := by
          unfold DmVerityInfo.validateHashType DmVerityInfo.isValidHash
          rw [if_neg hA, if_pos hB, if_pos hH]
        have lhs : d.IsValid =
            (if d.BlockNum = 0 ∨ d.BlockNum > 2 ^ 32 - 1 then
               (Except.error VerityErr.invalidBlockCount : Except VerityErr Unit)
             else if ¬(isValidBlockSize d.Blocksize = true ∧
                 isValidBlockSize d.Hashsize = true) then
               .error .invalidBlockSize
             else if ¬(d.Offset % d.Hashsize = 0) ∨
                 d.Offset < (d.Blocksize * d.BlockNum) % U64 then
               .error .invalidOffset
             else .ok ()) := by
          unfold DmVerityInfo.IsValid
          rw [hok]
        rw [lhs, hrest]
        unfold verityRulesSpec
        rw [if_pos (Or.inr hB), if_neg hA, if_neg (not_not_intro hH)]
      · have herr : d.validateHashType = .error .invalidHash := by
          unfold DmVerityInfo.validateHashType DmVerityInfo.isValidHash
          rw [if_neg hA, if_pos hB, if_neg hH]
        have lhs : d.IsValid = .error .invalidHash := by
          unfold DmVerityInfo.IsValid
          rw [herr]
        rw [lhs]
        unfold verityRulesSpec
        rw [if_pos (Or.inr hB), if_neg hA, if_pos hH]
    · have herr : d.validateHashType = .error .unsupportedAlgorithm := by
        unfold DmVerityInfo.validateHashType
        rw [if_neg hA, if_neg hB]
      have lhs : d.IsValid = .error .unsupportedAlgorithm := by
        unfold DmVerityInfo.IsValid
        rw [herr]
      rw [lhs]
      unfold verityRulesSpec
      rw [if_neg (by push_neg; exact ⟨hA, hB⟩)]

/-- C10: on any `DmVerityInfo` that reaches the offset rule — the block count
passed rule 3 and the data block size passed rule 4 — the product
`Blocksize * BlockNum` is at most `2^51`, so the 64-bit multiplication in
`DmVerityInfo.IsValid` is exact (reducing it modulo `2^64` changes nothing). -/
theorem verity_offset_product_exact (d : DmVerityInfo)
    (hcount : ¬(d.BlockNum = 0 ∨ d.BlockNum > 2 ^ 32 - 1))
    (hsize : isValidBlockSize d.Blocksize = true) :
    d.Blocksize * d.BlockNum ≤ 2 ^ 51 ∧
      (d.Blocksize * d.BlockNum) % U64 = d.Blocksize * d.BlockNum := by
  rw [isValidBlockSize, decide_eq_true_iff] at hsize
  have hbn : d.BlockNum ≤ 2 ^ 32 - 1 := by omega
  have hbs : d.Blocksize ≤ maxBlockSize := hsize.2
  have hprod : d.Blocksize * d.BlockNum ≤ 2 ^ 19 * (2 ^ 32 - 1) :=
    Nat.mul_le_mul hbs hbn
  refine ⟨le_trans hprod (by norm_num), Nat.mod_eq_of_lt ?_⟩
  have : (2 : Nat) ^ 19 * (2 ^ 32 - 1) < U64 := by norm_num [U64]
  omega

/-- C10 witness: the bound applies at the §8 vector's geometry. -/
theorem verity_offset_product_exact_witness :
    ({ HashType := strBytes "sha256", Hash := List.replicate 64 97, BlockNum := 100,
       Blocksize := 4096, Hashsize := 4096, Offset := 409600 } : DmVerityInfo).Blocksize *
        ({ HashType := strBytes "sha256", Hash := List.replicate 64 97, BlockNum := 100,
           Blocksize := 4096, Hashsize := 4096, Offset := 409600 } : DmVerityInfo).BlockNum ≤
        2 ^ 51 :=
  (verity_offset_product_exact _ (by decide) (by decide)).1

/-- C7 counterexample: `KataVirtualVolume.IsValid` accepts a descriptor that
carries both a `DirectVolume` and an `ImagePull` payload, so an accepted
descriptor can have two coexisting payload fields. -/
theorem twoPayloadVolume_accepted :
    twoPayloadVolume.IsValid = true ∧ twoPayloadVolume.DirectVolume ≠ none ∧
      twoPayloadVolume.ImagePull ≠ none := by
  refine ⟨by decide, by simp [twoPayloadVolume], by simp [twoPayloadVolume]⟩

/-- C7 (amended): for every descriptor accepted by `KataVirtualVolume.IsValid`
the payload designated by its volume type is present and valid, but the
validity rules do not force the other payload fields to be absent. -/
theorem kataVirtualVolume_active_payload (k : KataVirtualVolume)
    (h : k.IsValid = true) : activePayloadOk k := by
  unfold KataVirtualVolume.IsValid at h
  refine ⟨?_, ?_, ?_⟩
  · intro hvt
    rw [if_pos hvt, Bool.and_eq_true] at h
    cases hd : k.DirectVolume with
    | none => rw [hd] at h; exact absurd h.2 (by simp)
    | some d => rw [hd] at h; exact ⟨d, rfl, h.2⟩
  · intro hvt
    have hne1 : ¬k.VolumeType = KataVirtualVolumeDirectBlockType := by
      rcases hvt with h' | h' | h' | h' <;> rw [h'] <;> decide
    have hne2 : ¬(k.VolumeType = KataVirtualVolumeImageRawBlockType ∨
        k.VolumeType = KataVirtualVolumeLayerRawBlockType) := by
      rcases hvt with h' | h' | h' | h' <;> rw [h'] <;> decide
    rw [if_neg hne1, if_neg hne2, if_pos hvt, Bool.and_eq_true] at h
    cases hn : k.NydusImage with
    | none => rw [hn] at h; exact absurd h.2 (by simp)
    | some n => rw [hn] at h; exact ⟨n, rfl, h.2⟩
  · intro hvt
    have hne1 : ¬k.VolumeType = KataVirtualVolumeDirectBlockType := by
      rw [hvt]; decide
    have hne2 : ¬(k.VolumeType = KataVirtualVolumeImageRawBlockType ∨
        k.VolumeType = KataVirtualVolumeLayerRawBlockType) := by
      rw [hvt]; decide
    have hne3 : ¬(k.VolumeType = KataVirtualVolumeImageNydusBlockType ∨
        k.VolumeType = KataVirtualVolumeLayerNydusBlockType ∨
        k.VolumeType = KataVirtualVolumeImageNydusFsType ∨
        k.VolumeType = KataVirtualVolumeLayerNydusFsType) := by
      rw [hvt]; decide
    rw [if_neg hne1, if_neg hne2, if_neg hne3, if_pos hvt, Bool.and_eq_true] at h
    cases hi : k.ImagePull with
    | none => rw [hi] at h; exact absurd h.2 (by simp)
    | some i => rw [hi] at h; exact ⟨i, rfl, h.2⟩

/-- C7 witness: the amended statement applies to the two-payload descriptor. -/
theorem kataVirtualVolume_active_payload_witness : activePayloadOk twoPayloadVolume :=
  kataVirtualVolume_active_payload twoPayloadVolume (by decide)

/-! ### Base64 round trip -/

theorem b64Val_b64Char : ∀ v < 64, b64Val (b64Char v) = some v := by decide

theorem b64Char_ne_pad : ∀ v < 64, b64Char v ≠ 61 := by decide

/-- Decoding inverts encoding on byte lists. -/
theorem b64_roundtrip : ∀ bs : List Nat, (∀ b ∈ bs, b < 256) →
    b64DecodeList (b64EncodeList bs) = some bs
  | [], _ => rfl
  | [x], h => by
    have hx : x < 256 := h x (by simp)
    have h1 := b64Val_b64Char (x / 4) (by omega)
    have h2 := b64Val_b64Char (x % 4 * 16) (by omega)
    show b64DecodeList [b64Char (x / 4), b64Char (x % 4 * 16), 61, 61] = some [x]
    simp only [b64DecodeList, h1, h2, if_pos rfl]
    simp only [ne_eq, not_true_eq_false, if_false, if_pos rfl]
    refine congrArg some (congrArg (fun a => [a]) ?_)
    omega
  | [x, y], h => by
    have hx : x < 256 := h x (by simp)
    have hy : y < 256 := h y (by simp)
    have h1 := b64Val_b64Char (x / 4) (by omega)
    have h2 := b64Val_b64Char (x % 4 * 16 + y / 16) (by omega)
    have h3 := b64Val_b64Char (y % 16 * 4) (by omega)
    have h3ne := b64Char_ne_pad (y % 16 * 4) (by omega)
    show b64DecodeList
        [b64Char (x / 4), b64Char (x % 4 * 16 + y / 16), b64Char (y % 16 * 4), 61] =
      some [x, y]
    simp only [b64DecodeList, h1, h2, h3, if_pos rfl, if_neg h3ne]
    simp only [ne_eq, not_true_eq_false, if_false]
    refine congrArg some ?_
    have e1 : x / 4 * 4 + (x % 4 * 16 + y / 16) / 16 = x := by omega
    have e2 : (x % 4 * 16 + y / 16) % 16 * 16 + y % 16 * 4 / 4 = y := by omega
    rw [e1, e2]
  | x :: y :: z :: w :: r, h => by
    have hx : x < 256 := h x (by simp)
    have hy : y < 256 := h y (by simp)
    have hz : z < 256 := h z (by simp)
    have h1 := b64Val_b64Char (x / 4) (by omega)
    have h2 := b64Val_b64Char (x % 4 * 16 + y / 16) (by omega)
    have h3 := b64Val_b64Char (y % 16 * 4 + z / 64) (by omega)
    have h4 := b64Val_b64Char (z % 64) (by omega)
    have h4ne := b64Char_ne_pad (z % 64) (by omega)
    have ih := b64_roundtrip (w :: r) (fun b hb => h b (by simp [hb]))
    show b64DecodeList
        (b64Char (x / 4) :: b64Char (x % 4 * 16 + y / 16) ::
          b64Char (y % 16 * 4 + z / 64) :: b64Char (z % 64) :: b64EncodeList (w :: r)) =
      some (x :: y :: z :: w :: r)
    simp only [b64DecodeList, h1, h2, h3, h4, if_neg h4ne, ih, Option.map_some]
    refine congrArg some ?_
    have e1 : x / 4 * 4 + (x % 4 * 16 + y / 16) / 16 = x := by omega
    have e2 : (x % 4 * 16 + y / 16) % 16 * 16 + (y % 16 * 4 + z / 64) / 4 = y := by omega
    have e3 : (y % 16 * 4 + z / 64) % 4 * 64 + z % 64 = z := by omega
    rw [e1, e2, e3]
  | [x, y, z], h => by
    have hx : x < 256 := h x (by simp)
    have hy : y < 256 := h y (by simp)
    have hz : z < 256 := h z (by simp)
    have h1 := b64Val_b64Char (x / 4) (by omega)
    have h2 := b64Val_b64Char (x % 4 * 16 + y / 16) (by omega)
    have h3 := b64Val_b64Char (y % 16 * 4 + z / 64) (by omega)
    have h4 := b64Val_b64Char (z % 64) (by omega)
    have h4ne := b64Char_ne_pad (z % 64) (by omega)
    show b64DecodeList
        (b64Char (x / 4) :: b64Char (x % 4 * 16 + y / 16) ::
          b64Char (y % 16 * 4 + z / 64) :: b64Char (z % 64) :: b64EncodeList []) =
      some [x, y, z]
    simp only [b64DecodeList, h1, h2, h3, h4, if_neg h4ne, Option.map_some]
    refine congrArg some ?_
    have e1 : x / 4 * 4 + (x % 4 * 16 + y / 16) / 16 = x := by omega
    have e2 : (x % 4 * 16 + y / 16) % 16 * 16 + (y % 16 * 4 + z / 64) / 4 = y := by omega
    have e3 : (y % 16 * 4 + z / 64) % 4 * 64 + z % 64 = z := by omega
    rw [e1, e2, e3]

/-! ### Decimal rendering -/

theorem natDecAux_acc (n : Nat) : ∀ acc : List Nat, natDecAux n acc = natDecAux n [] ++ acc := by
  induction n using Nat.strong_induction_on with
  | _ n ih =>
    intro acc
    by_cases h : n < 10
    · have lhs : natDecAux n acc = (48 + n) :: acc := by rw [natDecAux, if_pos h]
      have rhs : natDecAux n [] = [48 + n] := by rw [natDecAux, if_pos h]
      rw [lhs, rhs]
      simp
    · have lhs : natDecAux n acc = natDecAux (n / 10) ((48 + n % 10) :: acc) := by
        rw [natDecAux, if_neg h]
      have rhs : natDecAux n [] = natDecAux (n / 10) [48 + n % 10] := by
        rw [natDecAux, if_neg h]
      rw [lhs, rhs, ih (n / 10) (by omega) ((48 + n % 10) :: acc),
        ih (n / 10) (by omega) [48 + n % 10]]
      simp

theorem natDec_step (n : Nat) :
    natDec n = (if n < 10 then [] else natDec (n / 10)) ++ [48 + n % 10] := by
  by_cases h : n < 10
  · rw [if_pos h, natDec, natDecAux, if_pos h, Nat.mod_eq_of_lt h]
    simp
  · rw [if_neg h, natDec, natDecAux, if_neg h, natDecAux_acc]
    rfl

theorem natDec_ne_nil (n : Nat) : natDec n ≠ [] := by
  rw [natDec_step]
  simp

theorem natDec_digits (n : Nat) : ∀ b ∈ natDec n, isDigitByte b = true := by
  induction n using Nat.strong_induction_on with
  | _ n ih =>
    intro b hb
    rw [natDec_step] at hb
    rcases List.mem_append.mp hb with hb | hb
    · by_cases h : n < 10
      · simp [h] at hb
      · rw [if_neg h] at hb
        exact ih (n / 10) (by omega) b hb
    · rw [List.mem_singleton] at hb
      subst hb
      rw [isDigitByte]
      simp only [decide_eq_true_iff]
      omega

theorem decDigitsVal_natDec (n : Nat) : decDigitsVal (natDec n) = n := by
  induction n using Nat.strong_induction_on with
  | _ n ih =>
    rw [natDec_step, decDigitsVal, List.foldl_append]
    by_cases h : n < 10
    · simp only [if_pos h, List.foldl_nil, List.foldl_cons]
      omega
    · simp only [if_neg h, List.foldl_cons, List.foldl_nil]
      have := ih (n / 10) (by omega)
      rw [decDigitsVal] at this
      rw [this]
      omega

/-! ### String literal round trip -/

theorem jHexVal_jHexDig : ∀ v < 16, jHexVal (jHexDig v) = some v := by decide

theorem jpStrBody_enc (s : GoStr) (rest : List Nat) :
    jpStrBody (s.flatMap jEscByte ++ 34 :: rest) = some (s, rest) := by
  induction s with
  | nil =>
    rw [List.flatMap_nil, List.nil_append, jpStrBody.eq_def]
    simp
  | cons b s ih =>
    rw [List.flatMap_cons, List.append_assoc]
    by_cases h34 : b = 34
    · subst h34
      rw [show jEscByte 34 = [92, 34] from rfl]
      rw [show ([92, 34] : List Nat) ++ (s.flatMap jEscByte ++ 34 :: rest) =
        92 :: 34 :: (s.flatMap jEscByte ++ 34 :: rest) from rfl]
      rw [jpStrBody.eq_def]
      simp only [if_neg (show ¬(92 : Nat) = 34 by omega), if_pos rfl,
        if_neg (show ¬(34 : Nat) = 117 by omega)]
      rw [show jUnescByte 34 = some 34 from rfl, ih]
      rfl
    · by_cases h92 : b = 92
      · subst h92
        rw [show jEscByte 92 = [92, 92] from rfl]
        rw [show ([92, 92] : List Nat) ++ (s.flatMap jEscByte ++ 34 :: rest) =
          92 :: 92 :: (s.flatMap jEscByte ++ 34 :: rest) from rfl]
        rw [jpStrBody.eq_def]
        simp only [if_neg (show ¬(92 : Nat) = 34 by omega), if_pos rfl,
          if_neg (show ¬(92 : Nat) = 117 by omega)]
        rw [show jUnescByte 92 = some 92 from rfl, ih]
        rfl
      · by_cases hctl : b < 32
        · rw [show jEscByte b = [92, 117, 48, 48, jHexDig (b / 16), jHexDig (b % 16)] from by
            rw [jEscByte, if_neg h34, if_neg h92, if_pos hctl]]
          rw [show ([92, 117, 48, 48, jHexDig (b / 16), jHexDig (b % 16)] : List Nat) ++
              (s.flatMap jEscByte ++ 34 :: rest) =
            92 :: 117 :: 48 :: 48 :: jHexDig (b / 16) :: jHexDig (b % 16) ::
              (s.flatMap jEscByte ++ 34 :: rest) from rfl]
          rw [jpStrBody.eq_def]
          have hv1 := jHexVal_jHexDig (b / 16) (by omega)
          have hv2 := jHexVal_jHexDig (b % 16) (by omega)
          have h48 : jHexVal 48 = some 0 := by decide
          have hhex : jHex4 48 48 (jHexDig (b / 16)) (jHexDig (b % 16)) = some b := by
            rw [jHex4, h48, hv1, hv2]
            show some (((0 * 16 + 0) * 16 + b / 16) * 16 + b % 16) = some b
            refine congrArg some ?_
            omega
          simp only [if_neg (show ¬(92 : Nat) = 34 by omega), if_pos rfl, hhex, ih]
          rw [utf8Enc, if_pos (show b < 128 by omega)]
          rfl
        · rw [show jEscByte b = [b] from by
            rw [jEscByte, if_neg h34, if_neg h92, if_neg hctl]]
          rw [List.singleton_append, jpStrBody.eq_def]
          simp only [if_neg h34, if_neg h92, if_neg (show ¬b < 32 by omega), ih]
          rfl

/-! ### Parser round trip: support lemmas -/

theorem dropWs_not_ws {c : Nat} (t : List Nat) (h : isWsByte c = false) :
    dropWs (c :: t) = c :: t := by
  rw [dropWs, h]
  simp

theorem takeWhile_all_app {p : Nat → Bool} : ∀ (l1 l2 : List Nat),
    (∀ b ∈ l1, p b = true) → (∀ c t, l2 = c :: t → p c = false) →
    (l1 ++ l2).takeWhile p = l1 ∧ (l1 ++ l2).dropWhile p = l2
  | [], l2, _, h2 => by
    cases l2 with
    | nil => simp
    | cons c t =>
      have hc := h2 c t rfl
      simp [List.takeWhile_cons, List.dropWhile_cons, hc]
  | b :: l1, l2, h1, h2 => by
    have hb : p b = true := h1 b (by simp)
    have ih := takeWhile_all_app l1 l2 (fun x hx => h1 x (by simp [hx])) h2
    simp [List.takeWhile_cons, List.dropWhile_cons, hb, ih.1, ih.2]

/-- Facts about an ASCII digit byte needed for parser dispatch. -/
theorem digit_head_facts (d : Nat) (h : isDigitByte d = true) :
    isWsByte d = false ∧ d ≠ 93 ∧ d ≠ 125 ∧ d ≠ 110 ∧ d ≠ 116 ∧ d ≠ 102 ∧
      d ≠ 34 ∧ d ≠ 91 ∧ d ≠ 123 ∧ d ≠ 45 := by
  rw [isDigitByte, decide_eq_true_iff] at h
  refine ⟨?_, by omega, by omega, by omega, by omega, by omega, by omega, by omega,
    by omega, by omega⟩
  rw [isWsByte]
  simp only [Bool.or_eq_false_iff, beq_eq_false_iff_ne]
  omega

/-- A digit byte is a number byte. -/
theorem digit_isNumByte (d : Nat) (h : isDigitByte d = true) : isNumByte d = true := by
  rw [isNumByte, h]
  simp

/-- Separator bytes are not number bytes. -/
theorem jDelimB_not_numByte (l : List Nat) (h : jDelimB l = true) :
    ∀ c t, l = c :: t → isNumByte c = false := by
  intro c t hl
  subst hl
  rw [jDelimB] at h
  rw [isNumByte, isDigitByte]
  simp only [Bool.or_eq_true, beq_iff_eq] at h
  simp only [Bool.or_eq_false_iff, beq_eq_false_iff_ne, decide_eq_false_iff_not]
  omega

/-- A non-empty all-digit token passes the number shape check. -/
theorem numTokOk_digits (tok : List Nat) (hne : tok ≠ [])
    (hd : ∀ b ∈ tok, isDigitByte b = true) : numTokOk tok = true := by
  cases tok with
  | nil => exact absurd rfl hne
  | cons b r =>
    have hb : isDigitByte b = true := hd b (by simp)
    have hb45 : ¬b = 45 := (digit_head_facts b hb).2.2.2.2.2.2.2.2.2
    have hspan := takeWhile_all_app (b :: r) [] (by simpa using hd) (by intro c t h; cases h)
    rw [List.append_nil] at hspan
    have hrun : digitRunRest (b :: r) = some [] := by
      rw [digitRunRest, List.span_eq_take_drop, hspan.1, hspan.2]
      simp [hne]
    rw [numTokOk, stripSign, if_neg hb45, hrun]
    rfl

theorem jsonDecVal_cons (f : Nat) (b : Nat) (r : List Nat) (h : isWsByte b = false) :
    jsonDecVal (f + 1) (b :: r) = jsonDecValAux f b r := by
  rw [jsonDecVal, dropWs_not_ws _ h]

theorem jsonDecVal_null (f : Nat) (rest : List Nat) :
    jsonDecVal (f + 1) (110 :: 117 :: 108 :: 108 :: rest) = some (.null, rest) := by
  rw [jsonDecVal_cons _ _ _ (by decide), jsonDecValAux, if_pos rfl]

theorem jsonDecVal_true (f : Nat) (rest : List Nat) :
    jsonDecVal (f + 1) (116 :: 114 :: 117 :: 101 :: rest) = some (.bool true, rest) := by
  rw [jsonDecVal_cons _ _ _ (by decide), jsonDecValAux,
    if_neg (show ¬(116 : Nat) = 110 by decide), if_pos rfl]

theorem jsonDecVal_false (f : Nat) (rest : List Nat) :
    jsonDecVal (f + 1) (102 :: 97 :: 108 :: 115 :: 101 :: rest) = some (.bool false, rest) := by
  rw [jsonDecVal_cons _ _ _ (by decide), jsonDecValAux,
    if_neg (show ¬(102 : Nat) = 110 by decide), if_neg (show ¬(102 : Nat) = 116 by decide),
    if_pos rfl]

theorem jsonDecVal_str (f : Nat) (s : GoStr) (rest : List Nat) :
    jsonDecVal (f + 1) (jsonEncStr s ++ rest) = some (.str s, rest) := by
  rw [jsonEncStr, List.cons_append, List.append_assoc, List.singleton_append]
  rw [jsonDecVal_cons _ _ _ (by decide), jsonDecValAux.eq_def,
    if_neg (show ¬(34 : Nat) = 110 by decide), if_neg (show ¬(34 : Nat) = 116 by decide),
    if_neg (show ¬(34 : Nat) = 102 by decide), if_pos rfl, jpStrBody_enc]
  rfl

theorem jsonDecVal_num (f : Nat) (raw rest : List Nat) (hne : raw ≠ [])
    (hdig : ∀ b ∈ raw, isDigitByte b = true) (hrest : jDelimB rest = true) :
    jsonDecVal (f + 1) (raw ++ rest) = some (.num raw, rest) := by
  cases raw with
  | nil => exact absurd rfl hne
  | cons d ds =>
    have hd : isDigitByte d = true := hdig d (by simp)
    obtain ⟨hws, h93, h125, h110, h116, h102, h34, h91, h123, h45⟩ := digit_head_facts d hd
    have hspan := takeWhile_all_app (d :: ds) rest
      (fun b hb => digit_isNumByte b (hdig b hb)) (jDelimB_not_numByte rest hrest)
    rw [List.cons_append] at hspan
    rw [List.cons_append, jsonDecVal_cons _ _ _ hws, jsonDecValAux.eq_def]
    rw [if_neg h110, if_neg h116, if_neg h102, if_neg h34, if_neg h91, if_neg h123]
    rw [if_pos (by rw [hd]; simp)]
    rw [List.span_eq_take_drop, hspan.1, hspan.2]
    simp [numTokOk_digits _ hne hdig]

theorem jsonEnc_head (j : Json) (hwf : jsonWf j = true) :
    ∃ c t, jsonEnc j = c :: t ∧ isWsByte c = false ∧ c ≠ 93 ∧ c ≠ 125 := by
  cases j with
  | null => exact ⟨110, [117, 108, 108], by rw [jsonEnc], by decide, by decide, by decide⟩
  | bool b =>
    cases b with
    | true => exact ⟨116, [114, 117, 101], by rw [jsonEnc], by decide, by decide, by decide⟩
    | false =>
      exact ⟨102, [97, 108, 115, 101], by rw [jsonEnc], by decide, by decide, by decide⟩
  | num raw =>
    rw [jsonWf, Bool.and_eq_true, decide_eq_true_iff] at hwf
    cases raw with
    | nil => exact absurd rfl hwf.1
    | cons d ds =>
      have hd : isDigitByte d = true := by
        have := hwf.2
        rw [List.all_eq_true] at this
        exact this d (by simp)
      obtain ⟨hws, h93, h125, _⟩ := digit_head_facts d hd
      exact ⟨d, ds, by rw [jsonEnc], hws, h93, h125⟩
  | str s =>
    exact ⟨34, s.flatMap jEscByte ++ [34], by rw [jsonEnc, jsonEncStr], by decide, by decide,
      by decide⟩
  | arr xs =>
    exact ⟨91, jsonEncArr xs ++ [93], by rw [jsonEnc], by decide, by decide, by decide⟩
  | obj fs =>
    exact ⟨123, jsonEncObj fs ++ [125], by rw [jsonEnc], by decide, by decide, by decide⟩

theorem jsonEnc_length_pos (j : Json) (hwf : jsonWf j = true) : 0 < (jsonEnc j).length := by
  obtain ⟨c, t, hct, _⟩ := jsonEnc_head j hwf
  rw [hct]
  simp

theorem jsonEncArrTail_cons (x : Json) (xs : List Json) :
    jsonEncArrTail (x :: xs) = 44 :: jsonEncArr (x :: xs) := by
  rw [jsonEncArrTail, jsonEncArr]

theorem jsonEncObjTail_cons (k : GoStr) (v : Json) (fs : List (GoStr × Json)) :
    jsonEncObjTail ((k, v) :: fs) = 44 :: jsonEncObj ((k, v) :: fs) := by
  rw [jsonEncObjTail, jsonEncObj]

theorem jsonDecObj_cons (g : Nat) (b : Nat) (r : List Nat) (h : isWsByte b = false) :
    jsonDecObj (g + 1) (b :: r) =
      if b = 34 then (jpStrBody r).bind (fun p => jsonDecObjVal g p.1 (dropWs p.2))
      else none := by
  rw [jsonDecObj, dropWs_not_ws _ h]

mutual

/-- Parsing a rendered value consumes exactly the rendered bytes. -/
theorem jsonDec_enc_val : ∀ (j : Json) (fuel : Nat) (rest : List Nat),
    jsonWf j = true → (jsonEnc j).length < fuel → jDelimB rest = true →
    jsonDecVal fuel (jsonEnc j ++ rest) = some (j, rest)
  | _, 0, _, _, hf, _ => absurd hf (by omega)
  | .null, fuel + 1, rest, _, _, _ => by
    rw [show jsonEnc Json.null = [110, 117, 108, 108] from by rw [jsonEnc]]
    exact jsonDecVal_null fuel rest
  | .bool true, fuel + 1, rest, _, _, _ => by
    rw [show jsonEnc (Json.bool true) = [116, 114, 117, 101] from by rw [jsonEnc]]
    exact jsonDecVal_true fuel rest
  | .bool false, fuel + 1, rest, _, _, _ => by
    rw [show jsonEnc (Json.bool false) = [102, 97, 108, 115, 101] from by rw [jsonEnc]]
    exact jsonDecVal_false fuel rest
  | .num raw, fuel + 1, rest, hwf, _, hrest => by
    rw [show jsonEnc (Json.num raw) = raw from by rw [jsonEnc]]
    rw [jsonWf, Bool.and_eq_true, decide_eq_true_iff, List.all_eq_true] at hwf
    exact jsonDecVal_num fuel raw rest hwf.1 hwf.2 hrest
  | .str s, fuel + 1, rest, _, _, _ => by
    rw [show jsonEnc (Json.str s) = jsonEncStr s from by rw [jsonEnc]]
    exact jsonDecVal_str fuel s rest
  | .arr [], fuel + 1, rest, _, _, _ => by
    rw [show jsonEnc (Json.arr []) ++ rest = 91 :: 93 :: rest from by
      rw [jsonEnc, jsonEncArr]
      rfl]
    rw [jsonDecVal_cons _ _ _ (by decide), jsonDecValAux.eq_def,
      if_neg (show ¬(91 : Nat) = 110 by decide), if_neg (show ¬(91 : Nat) = 116 by decide),
      if_neg (show ¬(91 : Nat) = 102 by decide), if_neg (show ¬(91 : Nat) = 34 by decide),
      if_pos rfl, dropWs_not_ws _ (by decide), jsonDecArrStart, if_pos rfl]
  | .arr (x :: xs), fuel + 1, rest, hwf, hf, _ => by
    rw [jsonWf] at hwf
    have hwx : jsonWf x = true ∧ jsonWfList xs = true := by
      have := hwf
      rw [jsonWfList, Bool.and_eq_true] at this
      exact this
    have hfar : (jsonEncArr (x :: xs)).length + 1 < fuel := by
      rw [show jsonEnc (Json.arr (x :: xs)) = 91 :: (jsonEncArr (x :: xs) ++ [93]) from by
        rw [jsonEnc]] at hf
      simp only [List.length_cons, List.length_append, List.length_singleton] at hf
      omega
    obtain ⟨c, t, hct, hcws, hc93, _⟩ := jsonEnc_head x hwx.1
    have key := jsonDec_enc_arr x xs fuel rest hwf hfar
    rw [show jsonEnc (Json.arr (x :: xs)) = 91 :: (jsonEncArr (x :: xs) ++ [93]) from by
      rw [jsonEnc]]
    rw [List.cons_append, List.append_assoc, List.singleton_append]
    rw [jsonDecVal_cons _ _ _ (by decide), jsonDecValAux.eq_def,
      if_neg (show ¬(91 : Nat) = 110 by decide), if_neg (show ¬(91 : Nat) = 116 by decide),
      if_neg (show ¬(91 : Nat) = 102 by decide), if_neg (show ¬(91 : Nat) = 34 by decide),
      if_pos rfl]
    have harr1 : jsonEncArr (x :: xs) ++ 93 :: rest =
        c :: (t ++ (jsonEncArrTail xs ++ 93 :: rest)) := by
      rw [jsonEncArr, hct]
      simp [List.append_assoc]
    rw [harr1, dropWs_not_ws _ hcws, jsonDecArrStart, if_neg hc93, ← harr1, key]
    rfl
  | .obj [], fuel + 1, rest, _, _, _ => by
    rw [show jsonEnc (Json.obj []) ++ rest = 123 :: 125 :: rest from by
      rw [jsonEnc, jsonEncObj]
      rfl]
    rw [jsonDecVal_cons _ _ _ (by decide), jsonDecValAux.eq_def,
      if_neg (show ¬(123 : Nat) = 110 by decide), if_neg (show ¬(123 : Nat) = 116 by decide),
      if_neg (show ¬(123 : Nat) = 102 by decide), if_neg (show ¬(123 : Nat) = 34 by decide),
      if_neg (show ¬(123 : Nat) = 91 by decide), if_pos rfl, dropWs_not_ws _ (by decide),
      jsonDecObjStart, if_pos rfl]
  | .obj ((k, v) :: fs), fuel + 1, rest, hwf, hf, _ => by
    rw [jsonWf] at hwf
    have hfob : (jsonEncObj ((k, v) :: fs)).length + 1 < fuel := by
      rw [show jsonEnc (Json.obj ((k, v) :: fs)) =
          123 :: (jsonEncObj ((k, v) :: fs) ++ [125]) from by rw [jsonEnc]] at hf
      simp only [List.length_cons, List.length_append, List.length_singleton] at hf
      omega
    have key := jsonDec_enc_obj (k, v) fs fuel rest hwf hfob
    rw [show jsonEnc (Json.obj ((k, v) :: fs)) =
        123 :: (jsonEncObj ((k, v) :: fs) ++ [125]) from by rw [jsonEnc]]
    rw [List.cons_append, List.append_assoc, List.singleton_append]
    rw [jsonDecVal_cons _ _ _ (by decide), jsonDecValAux.eq_def,
      if_neg (show ¬(123 : Nat) = 110 by decide), if_neg (show ¬(123 : Nat) = 116 by decide),
      if_neg (show ¬(123 : Nat) = 102 by decide), if_neg (show ¬(123 : Nat) = 34 by decide),
      if_neg (show ¬(123 : Nat) = 91 by decide), if_pos rfl]
    have hobj1 : jsonEncObj ((k, v) :: fs) ++ 125 :: rest =
        34 :: (k.flatMap jEscByte ++ (34 :: (58 :: (jsonEnc v ++
          (jsonEncObjTail fs ++ 125 :: rest))))) := by
      rw [jsonEncObj, jsonEncStr]
      simp [List.append_assoc]
    rw [hobj1, dropWs_not_ws _ (by decide), jsonDecObjStart,
      if_neg (show ¬(34 : Nat) = 125 by decide), ← hobj1, key]
    rfl
termination_by j _ _ _ _ _ => sizeOf j

/-- Parsing rendered array elements up to `]` recovers them. -/
theorem jsonDec_enc_arr : ∀ (x : Json) (xs : List Json) (fuel : Nat) (rest : List Nat),
    jsonWfList (x :: xs) = true → (jsonEncArr (x :: xs)).length + 1 < fuel →
    jsonDecArr fuel (jsonEncArr (x :: xs) ++ 93 :: rest) = some (x :: xs, rest)
  | _, _, 0, _, _, hf => absurd hf (by omega)
  | x, [], fuel + 1, rest, hwf, hf => by
    rw [jsonWfList, Bool.and_eq_true] at hwf
    have hen : jsonEncArr [x] = jsonEnc x := by
      rw [jsonEncArr, jsonEncArrTail, List.append_nil]
    have hfx : (jsonEnc x).length < fuel := by
      rw [hen] at hf
      omega
    have hv := jsonDec_enc_val x fuel (93 :: rest) hwf.1 hfx (by simp [jDelimB])
    rw [hen, jsonDecArr, hv, Option.some_bind, dropWs_not_ws _ (by decide),
      jsonDecArrCont, if_neg (show ¬(93 : Nat) = 44 by decide), if_pos rfl]
  | x, x' :: xs', fuel + 1, rest, hwf, hf => by
    rw [jsonWfList, Bool.and_eq_true] at hwf
    have hlenx : 0 < (jsonEnc x).length := jsonEnc_length_pos x hwf.1
    have hlens : (jsonEncArr (x :: x' :: xs')).length =
        (jsonEnc x).length + 1 + (jsonEncArr (x' :: xs')).length := by
      rw [jsonEncArr, jsonEncArrTail_cons]
      simp [List.length_append]
      omega
    have hfx : (jsonEnc x).length < fuel := by omega
    have hfx' : (jsonEncArr (x' :: xs')).length + 1 < fuel := by omega
    have hv := jsonDec_enc_val x fuel (44 :: (jsonEncArr (x' :: xs') ++ 93 :: rest)) hwf.1
      hfx (by simp [jDelimB])
    have key := jsonDec_enc_arr x' xs' fuel rest hwf.2 hfx'
    have harr : jsonEncArr (x :: x' :: xs') ++ 93 :: rest =
        jsonEnc x ++ (44 :: (jsonEncArr (x' :: xs') ++ 93 :: rest)) := by
      rw [jsonEncArr, jsonEncArrTail_cons]
      simp [List.append_assoc]
    rw [harr, jsonDecArr, hv, Option.some_bind, dropWs_not_ws _ (by decide),
      jsonDecArrCont, if_pos rfl, key]
    rfl
termination_by x xs _ _ _ _ => sizeOf x + sizeOf xs + 1

/-- Parsing rendered object fields up to `}` recovers them. -/
theorem jsonDec_enc_obj : ∀ (kv : GoStr × Json) (fs : List (GoStr × Json)) (fuel : Nat)
    (rest : List Nat),
    jsonWfFields (kv :: fs) = true → (jsonEncObj (kv :: fs)).length + 1 < fuel →
    jsonDecObj fuel (jsonEncObj (kv :: fs) ++ 125 :: rest) = some (kv :: fs, rest)
  | _, _, 0, _, _, hf => absurd hf (by omega)
  | (k, v), [], fuel + 1, rest, hwf, hf => by
    rw [jsonWfFields, Bool.and_eq_true, Bool.and_eq_true] at hwf
    have hwv : jsonWf v = true := hwf.1.2
    have hfv : (jsonEnc v).length < fuel := by
      rw [jsonEncObj, jsonEncObjTail, List.append_nil, jsonEncStr] at hf
      simp only [List.length_append, List.length_cons] at hf
      omega
    have hv := jsonDec_enc_val v fuel (125 :: rest) hwv hfv (by simp [jDelimB])
    have hobj : jsonEncObj ((k, v) :: []) ++ 125 :: rest =
        34 :: (k.flatMap jEscByte ++ 34 :: (58 :: (jsonEnc v ++ 125 :: rest))) := by
      rw [jsonEncObj, jsonEncObjTail, List.append_nil, jsonEncStr]
      simp [List.append_assoc]
    rw [hobj, jsonDecObj_cons _ _ _ (by decide), if_pos rfl, jpStrBody_enc,
      Option.some_bind, dropWs_not_ws _ (by decide), jsonDecObjVal, if_pos rfl, hv,
      Option.some_bind, dropWs_not_ws _ (by decide), jsonDecObjCont,
      if_neg (show ¬(125 : Nat) = 44 by decide), if_pos rfl]
  | (k, v), (k', v') :: fs', fuel + 1, rest, hwf, hf => by
    rw [jsonWfFields, Bool.and_eq_true, Bool.and_eq_true] at hwf
    have hwv : jsonWf v = true := hwf.1.2
    have hlens : (jsonEncObj ((k, v) :: (k', v') :: fs')).length =
        (jsonEncStr k).length + 1 + (jsonEnc v).length + 1 +
          (jsonEncObj ((k', v') :: fs')).length := by
      rw [jsonEncObj, jsonEncObjTail_cons]
      simp [List.length_append]
      omega
    have hkpos : 0 < (jsonEncStr k).length := by
      rw [jsonEncStr]
      simp
    have hfv : (jsonEnc v).length < fuel := by omega
    have hfo : (jsonEncObj ((k', v') :: fs')).length + 1 < fuel := by omega
    have hv := jsonDec_enc_val v fuel
      (44 :: (jsonEncObj ((k', v') :: fs') ++ 125 :: rest)) hwv hfv (by simp [jDelimB])
    have key := jsonDec_enc_obj (k', v') fs' fuel rest hwf.2 hfo
    have hobj : jsonEncObj ((k, v) :: (k', v') :: fs') ++ 125 :: rest =
        34 :: (k.flatMap jEscByte ++ 34 :: (58 :: (jsonEnc v ++
          (44 :: (jsonEncObj ((k', v') :: fs') ++ 125 :: rest))))) := by
      rw [jsonEncObj, jsonEncObjTail_cons, jsonEncStr]
      simp [List.append_assoc]
    rw [hobj, jsonDecObj_cons _ _ _ (by decide), if_pos rfl, jpStrBody_enc,
      Option.some_bind, dropWs_not_ws _ (by decide), jsonDecObjVal, if_pos rfl, hv,
      Option.some_bind, dropWs_not_ws _ (by decide), jsonDecObjCont, if_pos rfl, key]
    rfl
termination_by kv fs _ _ _ _ => sizeOf kv + sizeOf fs + 1

end

/-- Parsing a rendered document recovers the value. -/
theorem jsonParse_enc (j : Json) (hwf : jsonWf j = true) :
    jsonParse (jsonEnc j) = some j := by
  have hv := jsonDec_enc_val j ((jsonEnc j).length + 1) [] hwf (by omega) (by decide)
  rw [List.append_nil] at hv
  rw [jsonParse, hv]
  rfl

/-! ### Byte bounds of rendered JSON -/

theorem jHexDig_lt : ∀ v < 16, jHexDig v < 256 := by decide

theorem jEscByte_bytes (b : Nat) (h : b < 256) : ∀ c ∈ jEscByte b, c < 256 := by
  intro c hc
  rw [jEscByte] at hc
  split_ifs at hc with h1 h2 h3
  · rcases List.mem_cons.mp hc with rfl | hc
    · omega
    · rw [List.mem_singleton] at hc
      omega
  · rcases List.mem_cons.mp hc with rfl | hc
    · omega
    · rw [List.mem_singleton] at hc
      omega
  · have hd1 := jHexDig_lt (b / 16) (by omega)
    have hd2 := jHexDig_lt (b % 16) (by omega)
    simp only [List.mem_cons, List.mem_singleton] at hc
    rcases hc with rfl | rfl | rfl | rfl | rfl | hc
    · omega
    · omega
    · omega
    · omega
    · omega
    · simp at hc
      omega
  · rw [List.mem_singleton] at hc
    omega

theorem jsonEncStr_bytes (s : GoStr) (h : s.all (fun b => decide (b < 256)) = true) :
    ∀ c ∈ jsonEncStr s, c < 256 := by
  intro c hc
  rw [List.all_eq_true] at h
  rw [jsonEncStr] at hc
  rcases List.mem_cons.mp hc with rfl | hc
  · omega
  rcases List.mem_append.mp hc with hc | hc
  · obtain ⟨b, hb, hcb⟩ := List.mem_flatMap.mp hc
    exact jEscByte_bytes b (by simpa using h b hb) c hcb
  · rw [List.mem_singleton] at hc
    omega

theorem natDec_bytes (n : Nat) : ∀ c ∈ natDec n, c < 256 := by
  intro c hc
  have := natDec_digits n c hc
  rw [isDigitByte, decide_eq_true_iff] at this
  omega

mutual

/-- Every byte of a rendered well-formed value is a byte. -/
theorem jsonEnc_bytes : ∀ j : Json, jsonWf j = true → ∀ c ∈ jsonEnc j, c < 256
  | .null, _, c, hc => by
    rw [jsonEnc] at hc
    simp only [List.mem_cons, List.mem_singleton] at hc
    rcases hc with rfl | rfl | rfl | hc
    · omega
    · omega
    · omega
    · simp at hc
      omega
  | .bool true, _, c, hc => by
    rw [jsonEnc] at hc
    simp only [List.mem_cons, List.mem_singleton] at hc
    rcases hc with rfl | rfl | rfl | hc
    · omega
    · omega
    · omega
    · simp at hc
      omega
  | .bool false, _, c, hc => by
    rw [jsonEnc] at hc
    simp only [List.mem_cons, List.mem_singleton] at hc
    rcases hc with rfl | rfl | rfl | rfl | hc
    · omega
    · omega
    · omega
    · omega
    · simp at hc
      omega
  | .num raw, hwf, c, hc => by
    rw [jsonEnc] at hc
    rw [jsonWf, Bool.and_eq_true, List.all_eq_true] at hwf
    have := hwf.2 c hc
    rw [isDigitByte, decide_eq_true_iff] at this
    omega
  | .str s, hwf, c, hc => by
    rw [jsonEnc] at hc
    rw [jsonWf] at hwf
    exact jsonEncStr_bytes s hwf c hc
  | .arr xs, hwf, c, hc => by
    rw [jsonEnc] at hc
    rw [jsonWf] at hwf
    rcases List.mem_cons.mp hc with rfl | hc
    · omega
    rcases List.mem_append.mp hc with hc | hc
    · exact jsonEncArr_bytes xs hwf c hc
    · rw [List.mem_singleton] at hc
      omega
  | .obj fs, hwf, c, hc => by
    rw [jsonEnc] at hc
    rw [jsonWf] at hwf
    rcases List.mem_cons.mp hc with rfl | hc
    · omega
    rcases List.mem_append.mp hc with hc | hc
    · exact jsonEncObj_bytes fs hwf c hc
    · rw [List.mem_singleton] at hc
      omega
termination_by j _ _ _ => sizeOf j

theorem jsonEncArr_bytes : ∀ xs : List Json, jsonWfList xs = true →
    ∀ c ∈ jsonEncArr xs, c < 256
  | [], _, c, hc => by
    rw [jsonEncArr] at hc
    cases hc
  | x :: xs, hwf, c, hc => by
    rw [jsonWfList, Bool.and_eq_true] at hwf
    rw [jsonEncArr] at hc
    rcases List.mem_append.mp hc with hc | hc
    · exact jsonEnc_bytes x hwf.1 c hc
    · exact jsonEncArrTail_bytes xs hwf.2 c hc
termination_by xs _ _ _ => sizeOf xs

theorem jsonEncArrTail_bytes : ∀ xs : List Json, jsonWfList xs = true →
    ∀ c ∈ jsonEncArrTail xs, c < 256
  | [], _, c, hc => by
    rw [jsonEncArrTail] at hc
    cases hc
  | x :: xs, hwf, c, hc => by
    rw [jsonWfList, Bool.and_eq_true] at hwf
    rw [jsonEncArrTail] at hc
    rcases List.mem_cons.mp hc with rfl | hc
    · omega
    rcases List.mem_append.mp hc with hc | hc
    · exact jsonEnc_bytes x hwf.1 c hc
    · exact jsonEncArrTail_bytes xs hwf.2 c hc
termination_by xs _ _ _ => sizeOf xs

theorem jsonEncObj_bytes : ∀ fs : List (GoStr × Json), jsonWfFields fs = true →
    ∀ c ∈ jsonEncObj fs, c < 256
  | [], _, c, hc => by
    rw [jsonEncObj] at hc
    cases hc
  | (k, v) :: fs, hwf, c, hc => by
    rw [jsonWfFields, Bool.and_eq_true, Bool.and_eq_true] at hwf
    rw [jsonEncObj] at hc
    rcases List.mem_append.mp hc with hc | hc
    · exact jsonEncStr_bytes k hwf.1.1 c hc
    rcases List.mem_cons.mp hc with rfl | hc
    · omega
    rcases List.mem_append.mp hc with hc | hc
    · exact jsonEnc_bytes v hwf.1.2 c hc
    · exact jsonEncObjTail_bytes fs hwf.2 c hc
termination_by fs _ _ _ => sizeOf fs

theorem jsonEncObjTail_bytes : ∀ fs : List (GoStr × Json), jsonWfFields fs = true →
    ∀ c ∈ jsonEncObjTail fs, c < 256
  | [], _, c, hc => by
    rw [jsonEncObjTail] at hc
    cases hc
  | (k, v) :: fs, hwf, c, hc => by
    rw [jsonWfFields, Bool.and_eq_true, Bool.and_eq_true] at hwf
    rw [jsonEncObjTail] at hc
    rcases List.mem_cons.mp hc with rfl | hc
    · omega
    rcases List.mem_append.mp hc with hc | hc
    · exact jsonEncStr_bytes k hwf.1.1 c hc
    rcases List.mem_cons.mp hc with rfl | hc
    · omega
    rcases List.mem_append.mp hc with hc | hc
    · exact jsonEnc_bytes v hwf.1.2 c hc
    · exact jsonEncObjTail_bytes fs hwf.2 c hc
termination_by fs _ _ _ => sizeOf fs

end

/-! ### Field lookup -/

theorem jLookup_acc (tag : GoStr) : ∀ (l : List (GoStr × Json)) (acc : Option Json),
    l.foldl (fun acc p => if toLowerStr p.1 = tag then some p.2 else acc) acc =
      match l.foldl (fun acc p => if toLowerStr p.1 = tag then some p.2 else acc) none with
      | some w => some w
      | none => acc := by
  intro l
  induction l with
  | nil => intro acc; rfl
  | cons p l ih =>
    intro acc
    rw [List.foldl_cons, List.foldl_cons, ih, ih (if toLowerStr p.1 = tag then some p.2 else none)]
    by_cases hm : toLowerStr p.1 = tag
    · simp only [if_pos hm]
      cases l.foldl (fun acc p => if toLowerStr p.1 = tag then some p.2 else acc) none <;> rfl
    · simp only [if_neg hm]
      cases l.foldl (fun acc p => if toLowerStr p.1 = tag then some p.2 else acc) none <;> rfl

theorem jLookup_append (tag : GoStr) (l1 l2 : List (GoStr × Json)) :
    jLookup tag (l1 ++ l2) =
      match jLookup tag l2 with
      | some w => some w
      | none => jLookup tag l1 := by
  rw [jLookup, jLookup, jLookup, List.foldl_append, jLookup_acc]

theorem jLookup_nil (tag : GoStr) : jLookup tag [] = none := rfl

theorem jLookup_single (tag k : GoStr) (v : Json) :
    jLookup tag [(k, v)] = if toLowerStr k = tag then some v else none := rfl

theorem jLookup_append_none (tag : GoStr) (l1 l2 : List (GoStr × Json))
    (h : jLookup tag l2 = none) : jLookup tag (l1 ++ l2) = jLookup tag l1 := by
  rw [jLookup_append, h]

/-! Lookup across the marshalled field segments of `KataVirtualVolume`.  Each
segment holds at most one key, and the eight tags are pairwise distinct. -/

theorem jLookup_mfVolumeType (v : KataVirtualVolume) (t : GoStr) :
    jLookup t (mfVolumeType v) =
      if tagVolumeType = t then some (.str v.VolumeType) else none := by
  rw [mfVolumeType, jLookup_single, show toLowerStr tagVolumeType = tagVolumeType from by decide]

theorem jLookup_mfSource (v : KataVirtualVolume) (t : GoStr) :
    jLookup t (mfSource v) =
      if v.Source = [] then none
      else if tagSource = t then some (.str v.Source) else none := by
  rw [mfSource]
  by_cases h1 : v.Source = []
  · rw [if_pos h1, if_pos h1, jLookup_nil]
  · rw [if_neg h1, if_neg h1, jLookup_single,
      show toLowerStr tagSource = tagSource from by decide]

theorem jLookup_mfFSType (v : KataVirtualVolume) (t : GoStr) :
    jLookup t (mfFSType v) =
      if v.FSType = [] then none
      else if tagFsType = t then some (.str v.FSType) else none := by
  rw [mfFSType]
  by_cases h1 : v.FSType = []
  · rw [if_pos h1, if_pos h1, jLookup_nil]
  · rw [if_neg h1, if_neg h1, jLookup_single,
      show toLowerStr tagFsType = tagFsType from by decide]

theorem jLookup_mfOptions (v : KataVirtualVolume) (t : GoStr) :
    jLookup t (mfOptions v) =
      if v.Options = [] then none
      else if tagOptions = t then some (.arr (v.Options.map Json.str)) else none := by
  rw [mfOptions]
  by_cases h1 : v.Options = []
  · rw [if_pos h1, if_pos h1, jLookup_nil]
  · rw [if_neg h1, if_neg h1, jLookup_single,
      show toLowerStr tagOptions = tagOptions from by decide]

theorem jLookup_mfDirectVolume (v : KataVirtualVolume) (t : GoStr) :
    jLookup t (mfDirectVolume v) =
      match v.DirectVolume with
      | none => none
      | some d => if tagDirectVolume = t then some (marshalDirect d) else none := by
  rw [mfDirectVolume]
  cases v.DirectVolume with
  | none => rfl
  | some d =>
    rw [jLookup_single, show toLowerStr tagDirectVolume = tagDirectVolume from by decide]

theorem jLookup_mfImagePull (v : KataVirtualVolume) (t : GoStr) :
    jLookup t (mfImagePull v) =
      match v.ImagePull with
      | none => none
      | some i => if tagImagePull = t then some (marshalImagePull i) else none := by
  rw [mfImagePull]
  cases v.ImagePull with
  | none => rfl
  | some i =>
    rw [jLookup_single, show toLowerStr tagImagePull = tagImagePull from by decide]

theorem jLookup_mfNydusImage (v : KataVirtualVolume) (t : GoStr) :
    jLookup t (mfNydusImage v) =
      match v.NydusImage with
      | none => none
      | some n => if tagNydusImage = t then some (marshalNydusImage n) else none := by
  rw [mfNydusImage]
  cases v.NydusImage with
  | none => rfl
  | some n =>
    rw [jLookup_single, show toLowerStr tagNydusImage = tagNydusImage from by decide]

theorem jLookup_mfDmVerity (v : KataVirtualVolume) (t : GoStr) :
    jLookup t (mfDmVerity v) =
      match v.DmVerity with
      | none => none
      | some d => if tagDmVerity = t then some (marshalDmVerity d) else none := by
  rw [mfDmVerity]
  cases v.DmVerity with
  | none => rfl
  | some d =>
    rw [jLookup_single, show toLowerStr tagDmVerity = tagDmVerity from by decide]

theorem jLookup_append_left_none (tag : GoStr) (l1 l2 : List (GoStr × Json))
    (h : jLookup tag l1 = none) : jLookup tag (l1 ++ l2) = jLookup tag l2 := by
  rw [jLookup_append]
  cases hx : jLookup tag l2 with
  | none => rw [h]
  | some w => rfl

theorem jLookup_mfVolumeType_ne (v : KataVirtualVolume) (t : GoStr) (h : ¬tagVolumeType = t) :
    jLookup t (mfVolumeType v) = none := by
  rw [mfVolumeType, jLookup_single,
    show toLowerStr tagVolumeType = tagVolumeType from by decide, if_neg h]

theorem jLookup_mfSource_ne (v : KataVirtualVolume) (t : GoStr) (h : ¬tagSource = t) :
    jLookup t (mfSource v) = none := by
  rw [mfSource]
  by_cases h1 : v.Source = []
  · rw [if_pos h1, jLookup_nil]
  · rw [if_neg h1, jLookup_single, show toLowerStr tagSource = tagSource from by decide,
      if_neg h]

theorem jLookup_mfFSType_ne (v : KataVirtualVolume) (t : GoStr) (h : ¬tagFsType = t) :
    jLookup t (mfFSType v) = none := by
  rw [mfFSType]
  by_cases h1 : v.FSType = []
  · rw [if_pos h1, jLookup_nil]
  · rw [if_neg h1, jLookup_single, show toLowerStr tagFsType = tagFsType from by decide,
      if_neg h]

theorem jLookup_mfOptions_ne (v : KataVirtualVolume) (t : GoStr) (h : ¬tagOptions = t) :
    jLookup t (mfOptions v) = none := by
  rw [mfOptions]
  by_cases h1 : v.Options = []
  · rw [if_pos h1, jLookup_nil]
  · rw [if_neg h1, jLookup_single, show toLowerStr tagOptions = tagOptions from by decide,
      if_neg h]

theorem jLookup_mfDirectVolume_ne (v : KataVirtualVolume) (t : GoStr) (h : ¬tagDirectVolume = t) :
    jLookup t (mfDirectVolume v) = none := by
  rw [mfDirectVolume]
  cases v.DirectVolume with
  | none => rfl
  | some d =>
    show jLookup t [(tagDirectVolume, marshalDirect d)] = none
    rw [jLookup_single, show toLowerStr tagDirectVolume = tagDirectVolume from by decide,
      if_neg h]

theorem jLookup_mfImagePull_ne (v : KataVirtualVolume) (t : GoStr) (h : ¬tagImagePull = t) :
    jLookup t (mfImagePull v) = none := by
  rw [mfImagePull]
  cases v.ImagePull with
  | none => rfl
  | some i =>
    show jLookup t [(tagImagePull, marshalImagePull i)] = none
    rw [jLookup_single, show toLowerStr tagImagePull = tagImagePull from by decide,
      if_neg h]

theorem jLookup_mfNydusImage_ne (v : KataVirtualVolume) (t : GoStr) (h : ¬tagNydusImage = t) :
    jLookup t (mfNydusImage v) = none := by
  rw [mfNydusImage]
  cases v.NydusImage with
  | none => rfl
  | some n =>
    show jLookup t [(tagNydusImage, marshalNydusImage n)] = none
    rw [jLookup_single, show toLowerStr tagNydusImage = tagNydusImage from by decide,
      if_neg h]

theorem jLookup_mfDmVerity_ne (v : KataVirtualVolume) (t : GoStr) (h : ¬tagDmVerity = t) :
    jLookup t (mfDmVerity v) = none := by
  rw [mfDmVerity]
  cases v.DmVerity with
  | none => rfl
  | some d =>
    show jLookup t [(tagDmVerity, marshalDmVerity d)] = none
    rw [jLookup_single, show toLowerStr tagDmVerity = tagDmVerity from by decide,
      if_neg h]

theorem jLookup_mfDirectVolume_eq (v : KataVirtualVolume) :
    jLookup tagDirectVolume (mfDirectVolume v) = v.DirectVolume.map marshalDirect := by
  rw [mfDirectVolume]
  cases v.DirectVolume with
  | none => rfl
  | some d =>
    show jLookup tagDirectVolume [(tagDirectVolume, marshalDirect d)] = some (marshalDirect d)
    rw [jLookup_single, show toLowerStr tagDirectVolume = tagDirectVolume from by decide, if_pos rfl]

theorem jLookup_mfImagePull_eq (v : KataVirtualVolume) :
    jLookup tagImagePull (mfImagePull v) = v.ImagePull.map marshalImagePull := by
  rw [mfImagePull]
  cases v.ImagePull with
  | none => rfl
  | some i =>
    show jLookup tagImagePull [(tagImagePull, marshalImagePull i)] = some (marshalImagePull i)
    rw [jLookup_single, show toLowerStr tagImagePull = tagImagePull from by decide, if_pos rfl]

theorem jLookup_mfNydusImage_eq (v : KataVirtualVolume) :
    jLookup tagNydusImage (mfNydusImage v) = v.NydusImage.map marshalNydusImage := by
  rw [mfNydusImage]
  cases v.NydusImage with
  | none => rfl
  | some n =>
    show jLookup tagNydusImage [(tagNydusImage, marshalNydusImage n)] = some (marshalNydusImage n)
    rw [jLookup_single, show toLowerStr tagNydusImage = tagNydusImage from by decide, if_pos rfl]

theorem jLookup_mfDmVerity_eq (v : KataVirtualVolume) :
    jLookup tagDmVerity (mfDmVerity v) = v.DmVerity.map marshalDmVerity := by
  rw [mfDmVerity]
  cases v.DmVerity with
  | none => rfl
  | some d =>
    show jLookup tagDmVerity [(tagDmVerity, marshalDmVerity d)] = some (marshalDmVerity d)
    rw [jLookup_single, show toLowerStr tagDmVerity = tagDmVerity from by decide, if_pos rfl]

theorem mFields_lookup_mfVolumeType (v : KataVirtualVolume) :
    jLookup tagVolumeType (mFields v) = some (Json.str v.VolumeType) := by
  rw [mFields]
  rw [jLookup_append_none _ _ _ (jLookup_mfDmVerity_ne v _ (by decide))]
  rw [jLookup_append_none _ _ _ (jLookup_mfNydusImage_ne v _ (by decide))]
  rw [jLookup_append_none _ _ _ (jLookup_mfImagePull_ne v _ (by decide))]
  rw [jLookup_append_none _ _ _ (jLookup_mfDirectVolume_ne v _ (by decide))]
  rw [jLookup_append_none _ _ _ (jLookup_mfOptions_ne v _ (by decide))]
  rw [jLookup_append_none _ _ _ (jLookup_mfFSType_ne v _ (by decide))]
  rw [jLookup_append_none _ _ _ (jLookup_mfSource_ne v _ (by decide))]
  rw [jLookup_mfVolumeType, if_pos rfl]

theorem mFields_lookup_mfSource (v : KataVirtualVolume) :
    jLookup tagSource (mFields v) = if v.Source = [] then none else some (Json.str v.Source) := by
  rw [mFields]
  rw [jLookup_append_none _ _ _ (jLookup_mfDmVerity_ne v _ (by decide))]
  rw [jLookup_append_none _ _ _ (jLookup_mfNydusImage_ne v _ (by decide))]
  rw [jLookup_append_none _ _ _ (jLookup_mfImagePull_ne v _ (by decide))]
  rw [jLookup_append_none _ _ _ (jLookup_mfDirectVolume_ne v _ (by decide))]
  rw [jLookup_append_none _ _ _ (jLookup_mfOptions_ne v _ (by decide))]
  rw [jLookup_append_none _ _ _ (jLookup_mfFSType_ne v _ (by decide))]
  have hpre : jLookup tagSource (mfVolumeType v) = none := by
    exact jLookup_mfVolumeType_ne v _ (by decide)
  rw [jLookup_append, jLookup_mfSource]
  by_cases h1 : v.Source = []
  · rw [if_pos h1, if_pos h1]
    exact hpre
  · rw [if_neg h1, if_neg h1, if_pos rfl]

theorem mFields_lookup_mfFSType (v : KataVirtualVolume) :
    jLookup tagFsType (mFields v) = if v.FSType = [] then none else some (Json.str v.FSType) := by
  rw [mFields]
  rw [jLookup_append_none _ _ _ (jLookup_mfDmVerity_ne v _ (by decide))]
  rw [jLookup_append_none _ _ _ (jLookup_mfNydusImage_ne v _ (by decide))]
  rw [jLookup_append_none _ _ _ (jLookup_mfImagePull_ne v _ (by decide))]
  rw [jLookup_append_none _ _ _ (jLookup_mfDirectVolume_ne v _ (by decide))]
  rw [jLookup_append_none _ _ _ (jLookup_mfOptions_ne v _ (by decide))]
  have hpre : jLookup tagFsType (mfVolumeType v ++ mfSource v) = none := by
    rw [jLookup_append_none _ _ _ (jLookup_mfSource_ne v _ (by decide))]
    exact jLookup_mfVolumeType_ne v _ (by decide)
  rw [jLookup_append, jLookup_mfFSType]
  by_cases h1 : v.FSType = []
  · rw [if_pos h1, if_pos h1]
    exact hpre
  · rw [if_neg h1, if_neg h1, if_pos rfl]

theorem mFields_lookup_mfOptions (v : KataVirtualVolume) :
    jLookup tagOptions (mFields v) = if v.Options = [] then none else some (Json.arr (v.Options.map Json.str)) := by
  rw [mFields]
  rw [jLookup_append_none _ _ _ (jLookup_mfDmVerity_ne v _ (by decide))]
  rw [jLookup_append_none _ _ _ (jLookup_mfNydusImage_ne v _ (by decide))]
  rw [jLookup_append_none _ _ _ (jLookup_mfImagePull_ne v _ (by decide))]
  rw [jLookup_append_none _ _ _ (jLookup_mfDirectVolume_ne v _ (by decide))]
  have hpre : jLookup tagOptions (mfVolumeType v ++ mfSource v ++ mfFSType v) = none := by
    rw [jLookup_append_none _ _ _ (jLookup_mfFSType_ne v _ (by decide))]
    rw [jLookup_append_none _ _ _ (jLookup_mfSource_ne v _ (by decide))]
    exact jLookup_mfVolumeType_ne v _ (by decide)
  rw [jLookup_append, jLookup_mfOptions]
  by_cases h1 : v.Options = []
  · rw [if_pos h1, if_pos h1]
    exact hpre
  · rw [if_neg h1, if_neg h1, if_pos rfl]

theorem mFields_lookup_mfDirectVolume (v : KataVirtualVolume) :
    jLookup tagDirectVolume (mFields v) = (v.DirectVolume.map marshalDirect) := by
  rw [mFields]
  rw [jLookup_append_none _ _ _ (jLookup_mfDmVerity_ne v _ (by decide))]
  rw [jLookup_append_none _ _ _ (jLookup_mfNydusImage_ne v _ (by decide))]
  rw [jLookup_append_none _ _ _ (jLookup_mfImagePull_ne v _ (by decide))]
  have hpre : jLookup tagDirectVolume (mfVolumeType v ++ mfSource v ++ mfFSType v ++ mfOptions v) = none := by
    rw [jLookup_append_none _ _ _ (jLookup_mfOptions_ne v _ (by decide))]
    rw [jLookup_append_none _ _ _ (jLookup_mfFSType_ne v _ (by decide))]
    rw [jLookup_append_none _ _ _ (jLookup_mfSource_ne v _ (by decide))]
    exact jLookup_mfVolumeType_ne v _ (by decide)
  rw [jLookup_append, jLookup_mfDirectVolume_eq]
  cases v.DirectVolume with
  | none => exact hpre
  | some d => rfl

theorem mFields_lookup_mfImagePull (v : KataVirtualVolume) :
    jLookup tagImagePull (mFields v) = (v.ImagePull.map marshalImagePull) := by
  rw [mFields]
  rw [jLookup_append_none _ _ _ (jLookup_mfDmVerity_ne v _ (by decide))]
  rw [jLookup_append_none _ _ _ (jLookup_mfNydusImage_ne v _ (by decide))]
  have hpre : jLookup tagImagePull (mfVolumeType v ++ mfSource v ++ mfFSType v ++ mfOptions v ++ mfDirectVolume v) = none := by
    rw [jLookup_append_none _ _ _ (jLookup_mfDirectVolume_ne v _ (by decide))]
    rw [jLookup_append_none _ _ _ (jLookup_mfOptions_ne v _ (by decide))]
    rw [jLookup_append_none _ _ _ (jLookup_mfFSType_ne v _ (by decide))]
    rw [jLookup_append_none _ _ _ (jLookup_mfSource_ne v _ (by decide))]
    exact jLookup_mfVolumeType_ne v _ (by decide)
  rw [jLookup_append, jLookup_mfImagePull_eq]
  cases v.ImagePull with
  | none => exact hpre
  | some d => rfl

theorem mFields_lookup_mfNydusImage (v : KataVirtualVolume) :
    jLookup tagNydusImage (mFields v) = (v.NydusImage.map marshalNydusImage) := by
  rw [mFields]
  rw [jLookup_append_none _ _ _ (jLookup_mfDmVerity_ne v _ (by decide))]
  have hpre : jLookup tagNydusImage (mfVolumeType v ++ mfSource v ++ mfFSType v ++ mfOptions v ++ mfDirectVolume v ++ mfImagePull v) = none := by
    rw [jLookup_append_none _ _ _ (jLookup_mfImagePull_ne v _ (by decide))]
    rw [jLookup_append_none _ _ _ (jLookup_mfDirectVolume_ne v _ (by decide))]
    rw [jLookup_append_none _ _ _ (jLookup_mfOptions_ne v _ (by decide))]
    rw [jLookup_append_none _ _ _ (jLookup_mfFSType_ne v _ (by decide))]
    rw [jLookup_append_none _ _ _ (jLookup_mfSource_ne v _ (by decide))]
    exact jLookup_mfVolumeType_ne v _ (by decide)
  rw [jLookup_append, jLookup_mfNydusImage_eq]
  cases v.NydusImage with
  | none => exact hpre
  | some d => rfl

theorem mFields_lookup_mfDmVerity (v : KataVirtualVolume) :
    jLookup tagDmVerity (mFields v) = (v.DmVerity.map marshalDmVerity) := by
  rw [mFields]
  have hpre : jLookup tagDmVerity (mfVolumeType v ++ mfSource v ++ mfFSType v ++ mfOptions v ++ mfDirectVolume v ++ mfImagePull v ++ mfNydusImage v) = none := by
    rw [jLookup_append_none _ _ _ (jLookup_mfNydusImage_ne v _ (by decide))]
    rw [jLookup_append_none _ _ _ (jLookup_mfImagePull_ne v _ (by decide))]
    rw [jLookup_append_none _ _ _ (jLookup_mfDirectVolume_ne v _ (by decide))]
    rw [jLookup_append_none _ _ _ (jLookup_mfOptions_ne v _ (by decide))]
    rw [jLookup_append_none _ _ _ (jLookup_mfFSType_ne v _ (by decide))]
    rw [jLookup_append_none _ _ _ (jLookup_mfSource_ne v _ (by decide))]
    exact jLookup_mfVolumeType_ne v _ (by decide)
  rw [jLookup_append, jLookup_mfDmVerity_eq]
  cases v.DmVerity with
  | none => exact hpre
  | some d => rfl

/-! ### Unmarshal-of-marshal round trips -/

theorem strElem_map : ∀ l : List GoStr, (l.map Json.str).mapM strElem = some l
  | [] => rfl
  | s :: l => by
    rw [List.map_cons, List.mapM_cons, strElem_map l]
    rfl

theorem metaEntry_map : ∀ l : List (GoStr × GoStr),
    (l.map (fun p => (p.1, Json.str p.2))).mapM metaEntry = some l
  | [] => rfl
  | (k, w) :: l => by
    rw [List.map_cons, List.mapM_cons, metaEntry_map l]
    rfl

theorem unmarshalDirect_marshal (d : DirectAssignedVolume) :
    unmarshalDirect (marshalDirect d) = some d := by
  cases d with
  | mk meta =>
    cases meta with
    | none => rfl
    | some l =>
      rw [marshalDirect, unmarshalDirect]
      show ((getMapField [(tagMetadata, marshalMeta (some l))] tagMetadata).map
        (fun m => (⟨m⟩ : DirectAssignedVolume))) = some ⟨some l⟩
      rw [show marshalMeta (some l) = Json.obj (l.map (fun p => (p.1, Json.str p.2))) from rfl]
      rw [getMapField, jLookup_single,
        show toLowerStr tagMetadata = tagMetadata from by decide, if_pos rfl]
      show (((l.map (fun p => (p.1, Json.str p.2))).mapM metaEntry).map some).map
        (fun m => (⟨m⟩ : DirectAssignedVolume)) = some ⟨some l⟩
      rw [metaEntry_map]
      rfl

theorem unmarshalImagePull_marshal (i : ImagePullVolume) :
    unmarshalImagePull (marshalImagePull i) = some i := by
  cases i with
  | mk meta =>
    cases meta with
    | none => rfl
    | some l =>
      rw [marshalImagePull, unmarshalImagePull]
      show ((getMapField [(tagMetadata, marshalMeta (some l))] tagMetadata).map
        (fun m => (⟨m⟩ : ImagePullVolume))) = some ⟨some l⟩
      rw [show marshalMeta (some l) = Json.obj (l.map (fun p => (p.1, Json.str p.2))) from rfl]
      rw [getMapField, jLookup_single,
        show toLowerStr tagMetadata = tagMetadata from by decide, if_pos rfl]
      show (((l.map (fun p => (p.1, Json.str p.2))).mapM metaEntry).map some).map
        (fun m => (⟨m⟩ : ImagePullVolume)) = some ⟨some l⟩
      rw [metaEntry_map]
      rfl

theorem unmarshalNydusImage_marshal (n : NydusImageVolume) :
    unmarshalNydusImage (marshalNydusImage n) = some n := by
  cases n with
  | mk c sd => rfl

theorem u64TokVal_natDec (n : Nat) (h : n < U64) : u64TokVal (natDec n) = some n := by
  rw [u64TokVal, if_pos ⟨natDec_ne_nil n,
    by rw [List.all_eq_true]; exact fun b hb => natDec_digits n b hb,
    by rw [decDigitsVal_natDec]; exact h⟩, decDigitsVal_natDec]

theorem unmarshalDmVerity_marshal (d : DmVerityInfo) (h1 : d.BlockNum < U64)
    (h2 : d.Blocksize < U64) (h3 : d.Hashsize < U64) (h4 : d.Offset < U64) :
    unmarshalDmVerity (marshalDmVerity d) = some d := by
  rw [marshalDmVerity, unmarshalDmVerity]
  rw [show getStrField [(tagHashtype, Json.str d.HashType), (tagHash, Json.str d.Hash),
      (tagBlocknum, Json.num (natDec d.BlockNum)), (tagBlocksize, Json.num (natDec d.Blocksize)),
      (tagHashsize, Json.num (natDec d.Hashsize)), (tagOffset, Json.num (natDec d.Offset))]
      tagHashtype = some d.HashType from rfl]
  rw [show getStrField [(tagHashtype, Json.str d.HashType), (tagHash, Json.str d.Hash),
      (tagBlocknum, Json.num (natDec d.BlockNum)), (tagBlocksize, Json.num (natDec d.Blocksize)),
      (tagHashsize, Json.num (natDec d.Hashsize)), (tagOffset, Json.num (natDec d.Offset))]
      tagHash = some d.Hash from rfl]
  rw [show getU64Field [(tagHashtype, Json.str d.HashType), (tagHash, Json.str d.Hash),
      (tagBlocknum, Json.num (natDec d.BlockNum)), (tagBlocksize, Json.num (natDec d.Blocksize)),
      (tagHashsize, Json.num (natDec d.Hashsize)), (tagOffset, Json.num (natDec d.Offset))]
      tagBlocknum = u64TokVal (natDec d.BlockNum) from rfl]
  rw [show getU64Field [(tagHashtype, Json.str d.HashType), (tagHash, Json.str d.Hash),
      (tagBlocknum, Json.num (natDec d.BlockNum)), (tagBlocksize, Json.num (natDec d.Blocksize)),
      (tagHashsize, Json.num (natDec d.Hashsize)), (tagOffset, Json.num (natDec d.Offset))]
      tagBlocksize = u64TokVal (natDec d.Blocksize) from rfl]
  rw [show getU64Field [(tagHashtype, Json.str d.HashType), (tagHash, Json.str d.Hash),
      (tagBlocknum, Json.num (natDec d.BlockNum)), (tagBlocksize, Json.num (natDec d.Blocksize)),
      (tagHashsize, Json.num (natDec d.Hashsize)), (tagOffset, Json.num (natDec d.Offset))]
      tagHashsize = u64TokVal (natDec d.Hashsize) from rfl]
  rw [show getU64Field [(tagHashtype, Json.str d.HashType), (tagHash, Json.str d.Hash),
      (tagBlocknum, Json.num (natDec d.BlockNum)), (tagBlocksize, Json.num (natDec d.Blocksize)),
      (tagHashsize, Json.num (natDec d.Hashsize)), (tagOffset, Json.num (natDec d.Offset))]
      tagOffset = u64TokVal (natDec d.Offset) from rfl]
  rw [u64TokVal_natDec _ h1, u64TokVal_natDec _ h2, u64TokVal_natDec _ h3, u64TokVal_natDec _ h4]

theorem unmarshalKVV_marshal (v : KataVirtualVolume)
    (hdm : ∀ d, v.DmVerity = some d →
      d.BlockNum < U64 ∧ d.Blocksize < U64 ∧ d.Hashsize < U64 ∧ d.Offset < U64) :
    unmarshalKVV (marshalKataVirtualVolume v) = some v := by
  have evt : getStrField (mFields v) tagVolumeType = some v.VolumeType := by
    rw [getStrField, mFields_lookup_mfVolumeType]
  have esrc : getStrField (mFields v) tagSource = some v.Source := by
    rw [getStrField, mFields_lookup_mfSource]
    by_cases h : v.Source = []
    · rw [if_pos h, h]
    · rw [if_neg h]
  have efst : getStrField (mFields v) tagFsType = some v.FSType := by
    rw [getStrField, mFields_lookup_mfFSType]
    by_cases h : v.FSType = []
    · rw [if_pos h, h]
    · rw [if_neg h]
  have eopts : getStrListField (mFields v) tagOptions = some v.Options := by
    rw [getStrListField, mFields_lookup_mfOptions]
    by_cases h : v.Options = []
    · rw [if_pos h, h]
    · rw [if_neg h]
      show (v.Options.map Json.str).mapM strElem = some v.Options
      exact strElem_map v.Options
  have edv : getPtrField (mFields v) tagDirectVolume unmarshalDirect = some v.DirectVolume := by
    rw [getPtrField, mFields_lookup_mfDirectVolume]
    cases hD : v.DirectVolume with
    | none => rfl
    | some d =>
      show (unmarshalDirect (marshalDirect d)).map some = some (some d)
      rw [unmarshalDirect_marshal]
      rfl
  have eip : getPtrField (mFields v) tagImagePull unmarshalImagePull = some v.ImagePull := by
    rw [getPtrField, mFields_lookup_mfImagePull]
    cases hD : v.ImagePull with
    | none => rfl
    | some i =>
      show (unmarshalImagePull (marshalImagePull i)).map some = some (some i)
      rw [unmarshalImagePull_marshal]
      rfl
  have eni : getPtrField (mFields v) tagNydusImage unmarshalNydusImage = some v.NydusImage := by
    rw [getPtrField, mFields_lookup_mfNydusImage]
    cases hD : v.NydusImage with
    | none => rfl
    | some n =>
      show (unmarshalNydusImage (marshalNydusImage n)).map some = some (some n)
      rw [unmarshalNydusImage_marshal]
      rfl
  have edm : getPtrField (mFields v) tagDmVerity unmarshalDmVerity = some v.DmVerity := by
    rw [getPtrField, mFields_lookup_mfDmVerity]
    cases hD : v.DmVerity with
    | none => rfl
    | some d =>
      obtain ⟨h1, h2, h3, h4⟩ := hdm d hD
      show (unmarshalDmVerity (marshalDmVerity d)).map some = some (some d)
      rw [unmarshalDmVerity_marshal d h1 h2 h3 h4]
      rfl
  rw [marshalKataVirtualVolume, unmarshalKVV, evt, esrc, efst, eopts, edv, eip, eni, edm]

/-! ### Well-formedness of marshalled volumes -/

theorem jsonWfFields_append : ∀ l1 l2 : List (GoStr × Json),
    jsonWfFields (l1 ++ l2) = (jsonWfFields l1 && jsonWfFields l2)
  | [], l2 => by rw [List.nil_append, jsonWfFields, Bool.true_and]
  | (k, v) :: l1, l2 => by
    rw [List.cons_append, jsonWfFields, jsonWfFields, jsonWfFields_append l1 l2]
    cases List.all k fun b => decide (b < 256) <;> cases jsonWf v <;>
      cases jsonWfFields l1 <;> cases jsonWfFields l2 <;> rfl

theorem bytesOk_all (s : GoStr) (h : bytesOk s) :
    s.all (fun b => decide (b < 256)) = true := by
  rw [List.all_eq_true]
  intro b hb
  simpa using h b hb

theorem wf_str (s : GoStr) (h : bytesOk s) : jsonWf (.str s) = true := by
  rw [jsonWf]
  exact bytesOk_all s h

theorem wf_num_natDec (n : Nat) : jsonWf (.num (natDec n)) = true := by
  rw [jsonWf, Bool.and_eq_true, decide_eq_true_iff, List.all_eq_true]
  exact ⟨natDec_ne_nil n, natDec_digits n⟩

theorem wfFields_metaMap : ∀ l : List (GoStr × GoStr),
    (∀ p ∈ l, bytesOk p.1 ∧ bytesOk p.2) →
    jsonWfFields (l.map (fun p => (p.1, Json.str p.2))) = true
  | [], _ => rfl
  | (k, w) :: l, h => by
    rw [List.map_cons, jsonWfFields, wfFields_metaMap l (fun p hp => h p (by simp [hp])),
      bytesOk_all k (h (k, w) (by simp)).1, wf_str w (h (k, w) (by simp)).2]
    rfl

theorem wf_meta (m : Option (List (GoStr × GoStr))) (h : metaOk m) :
    jsonWf (marshalMeta m) = true := by
  cases m with
  | none => rfl
  | some l =>
    rw [marshalMeta, jsonWf]
    exact wfFields_metaMap l (h l rfl)

theorem wf_marshalDirect (d : DirectAssignedVolume) (h : metaOk d.Metadata) :
    jsonWf (marshalDirect d) = true := by
  rw [marshalDirect, jsonWf, jsonWfFields, jsonWfFields, wf_meta _ h,
    show tagMetadata.all (fun b => decide (b < 256)) = true from by decide]
  rfl

theorem wf_marshalImagePull (i : ImagePullVolume) (h : metaOk i.Metadata) :
    jsonWf (marshalImagePull i) = true := by
  rw [marshalImagePull, jsonWf, jsonWfFields, jsonWfFields, wf_meta _ h,
    show tagMetadata.all (fun b => decide (b < 256)) = true from by decide]
  rfl

theorem wf_marshalNydusImage (n : NydusImageVolume) (h1 : bytesOk n.Config)
    (h2 : bytesOk n.SnapshotDir) : jsonWf (marshalNydusImage n) = true := by
  rw [marshalNydusImage, jsonWf, jsonWfFields, jsonWfFields, jsonWfFields,
    wf_str _ h1, wf_str _ h2,
    show tagConfig.all (fun b => decide (b < 256)) = true from by decide,
    show tagSnapshotDir.all (fun b => decide (b < 256)) = true from by decide]
  rfl

theorem wf_marshalDmVerity (d : DmVerityInfo) (h1 : bytesOk d.HashType)
    (h2 : bytesOk d.Hash) : jsonWf (marshalDmVerity d) = true := by
  rw [marshalDmVerity, jsonWf, jsonWfFields, jsonWfFields, jsonWfFields, jsonWfFields,
    jsonWfFields, jsonWfFields, jsonWfFields, wf_str _ h1, wf_str _ h2,
    wf_num_natDec, wf_num_natDec, wf_num_natDec, wf_num_natDec,
    show tagHashtype.all (fun b => decide (b < 256)) = true from by decide,
    show tagHash.all (fun b => decide (b < 256)) = true from by decide,
    show tagBlocknum.all (fun b => decide (b < 256)) = true from by decide,
    show tagBlocksize.all (fun b => decide (b < 256)) = true from by decide,
    show tagHashsize.all (fun b => decide (b < 256)) = true from by decide,
    show tagOffset.all (fun b => decide (b < 256)) = true from by decide]
  rfl

theorem wfList_strs : ∀ l : List GoStr, (∀ o ∈ l, bytesOk o) →
    jsonWfList (l.map Json.str) = true
  | [], _ => rfl
  | s :: l, h => by
    rw [List.map_cons, jsonWfList, wf_str s (h s (by simp)),
      wfList_strs l (fun o ho => h o (by simp [ho]))]
    rfl

theorem marshalKVV_wf (v : KataVirtualVolume) (h : v.ReprOk) :
    jsonWf (marshalKataVirtualVolume v) = true := by
  obtain ⟨hvt, hsrc, hfst, hopt, hdv, hip, hni, hdm⟩ := h
  have w1 : jsonWfFields (mfVolumeType v) = true := by
    rw [mfVolumeType, jsonWfFields, jsonWfFields, wf_str _ hvt,
      show tagVolumeType.all (fun b => decide (b < 256)) = true from by decide]
    rfl
  have w2 : jsonWfFields (mfSource v) = true := by
    rw [mfSource]
    by_cases hs : v.Source = []
    · rw [if_pos hs]
      rfl
    · rw [if_neg hs, jsonWfFields, jsonWfFields, wf_str _ hsrc,
        show tagSource.all (fun b => decide (b < 256)) = true from by decide]
      rfl
  have w3 : jsonWfFields (mfFSType v) = true := by
    rw [mfFSType]
    by_cases hs : v.FSType = []
    · rw [if_pos hs]
      rfl
    · rw [if_neg hs, jsonWfFields, jsonWfFields, wf_str _ hfst,
        show tagFsType.all (fun b => decide (b < 256)) = true from by decide]
      rfl
  have w4 : jsonWfFields (mfOptions v) = true := by
    rw [mfOptions]
    by_cases hs : v.Options = []
    · rw [if_pos hs]
      rfl
    · rw [if_neg hs, jsonWfFields, jsonWfFields,
        show jsonWf (.arr (v.Options.map Json.str)) = jsonWfList (v.Options.map Json.str)
          from by rw [jsonWf],
        wfList_strs _ hopt,
        show tagOptions.all (fun b => decide (b < 256)) = true from by decide]
      rfl
  have w5 : jsonWfFields (mfDirectVolume v) = true := by
    rw [mfDirectVolume]
    cases hD : v.DirectVolume with
    | none => rfl
    | some d =>
      rw [jsonWfFields, jsonWfFields, wf_marshalDirect d (hdv d hD),
        show tagDirectVolume.all (fun b => decide (b < 256)) = true from by decide]
      rfl
  have w6 : jsonWfFields (mfImagePull v) = true := by
    rw [mfImagePull]
    cases hD : v.ImagePull with
    | none => rfl
    | some i =>
      rw [jsonWfFields, jsonWfFields, wf_marshalImagePull i (hip i hD),
        show tagImagePull.all (fun b => decide (b < 256)) = true from by decide]
      rfl
  have w7 : jsonWfFields (mfNydusImage v) = true := by
    rw [mfNydusImage]
    cases hD : v.NydusImage with
    | none => rfl
    | some n =>
      rw [jsonWfFields, jsonWfFields, wf_marshalNydusImage n (hni n hD).1 (hni n hD).2,
        show tagNydusImage.all (fun b => decide (b < 256)) = true from by decide]
      rfl
  have w8 : jsonWfFields (mfDmVerity v) = true := by
    rw [mfDmVerity]
    cases hD : v.DmVerity with
    | none => rfl
    | some d =>
      rw [jsonWfFields, jsonWfFields, wf_marshalDmVerity d (hdm d hD).1 (hdm d hD).2.1,
        show tagDmVerity.all (fun b => decide (b < 256)) = true from by decide]
      rfl
  rw [marshalKataVirtualVolume, jsonWf, mFields, jsonWfFields_append, jsonWfFields_append,
    jsonWfFields_append, jsonWfFields_append, jsonWfFields_append, jsonWfFields_append,
    jsonWfFields_append, w1, w2, w3, w4, w5, w6, w7, w8]
  rfl

/-! ### Concrete volumes: representability -/

theorem sampleVolume_reprOk : sampleVolume.ReprOk := by
  refine ⟨by decide, by decide, by decide, ?_, ?_, ?_, ?_, ?_⟩
  · intro o ho
    exact absurd ho (List.not_mem_nil o)
  · intro d hd
    exact Option.noConfusion hd
  · intro i hi
    injection hi with h2
    subst h2
    intro l hl
    injection hl with h3
    subst h3
    intro p hp
    exact absurd hp (List.not_mem_nil p)
  · intro n hn
    exact Option.noConfusion hn
  · intro d hd
    exact Option.noConfusion hd

theorem bogusVolume_reprOk : bogusVolume.ReprOk := by
  refine ⟨by decide, by decide, by decide, ?_, ?_, ?_, ?_, ?_⟩
  · intro o ho
    exact absurd ho (List.not_mem_nil o)
  · intro d hd
    exact Option.noConfusion hd
  · intro i hi
    exact Option.noConfusion hi
  · intro n hn
    exact Option.noConfusion hn
  · intro d hd
    exact Option.noConfusion hd

/-- The `uint64` bounds a representable volume guarantees for its verity info. -/
theorem reprOk_dm (v : KataVirtualVolume) (h : v.ReprOk) :
    ∀ d, v.DmVerity = some d →
      d.BlockNum < U64 ∧ d.Blocksize < U64 ∧ d.Hashsize < U64 ∧ d.Offset < U64 := by
  intro d hd
  have hx := h.2.2.2.2.2.2.2 d hd
  exact ⟨hx.2.2.1, hx.2.2.2.1, hx.2.2.2.2.1, hx.2.2.2.2.2⟩

/-- C3: decoding inverts encoding on every valid representable descriptor: the
produced base64 string parses back to exactly the same volume, with all set
fields preserved. -/
theorem kataVirtualVolume_roundtrip (v : KataVirtualVolume) (hrepr : v.ReprOk)
    (hvalid : v.IsValid = true) :
    ∃ s, EncodeKataVirtualVolumeToBase64 v = .ok s ∧
      ParseKataVirtualVolumeFromBase64 s = .ok v := by
  have hwf : jsonWf (marshalKataVirtualVolume v) = true := marshalKVV_wf v hrepr
  have hb64 : b64DecodeList (b64EncodeList (jsonEnc (marshalKataVirtualVolume v))) =
      some (jsonEnc (marshalKataVirtualVolume v)) :=
    b64_roundtrip _ (jsonEnc_bytes _ hwf)
  refine ⟨_, rfl, ?_⟩
  rw [ParseKataVirtualVolumeFromBase64, hb64]
  show ParseKataVirtualVolume (jsonEnc (marshalKataVirtualVolume v)) = .ok v
  rw [ParseKataVirtualVolume, jsonParse_enc _ hwf]
  show (match unmarshalKVV (marshalKataVirtualVolume v) with
    | none => (Except.error KvErr.jsonUnmarshal : Except KvErr KataVirtualVolume)
    | some no => if no.IsValid then .ok no else .error .validation) = .ok v
  rw [unmarshalKVV_marshal v (reprOk_dm v hrepr)]
  show (if v.IsValid = true then (Except.ok v : Except KvErr KataVirtualVolume)
    else .error .validation) = .ok v
  rw [if_pos hvalid]

/-- C3 witness: the §8 guest-pull descriptor round-trips. -/
theorem kataVirtualVolume_roundtrip_witness :
    ∃ s, EncodeKataVirtualVolumeToBase64 sampleVolume = .ok s ∧
      ParseKataVirtualVolumeFromBase64 s = .ok sampleVolume :=
  kataVirtualVolume_roundtrip sampleVolume sampleVolume_reprOk (by decide)

/-- C4: the decode pipeline classifies failures by stage — a base64 decode
failure yields the base64 error kind and nothing else; a JSON unmarshal
failure (unparsable document or schema mismatch) yields the unmarshal error
kind; a structurally well-formed volume failing the validation table yields
the validation error kind; and in the one remaining case decoding succeeds. -/
theorem parseKataVirtualVolumeFromBase64_stages :
    (∀ s : GoStr, b64DecodeList s = none →
      ParseKataVirtualVolumeFromBase64 s = .error .base64Decode) ∧
    (∀ s bs, b64DecodeList s = some bs → jsonParse bs = none →
      ParseKataVirtualVolumeFromBase64 s = .error .jsonUnmarshal) ∧
    (∀ s bs j, b64DecodeList s = some bs → jsonParse bs = some j → unmarshalKVV j = none →
      ParseKataVirtualVolumeFromBase64 s = .error .jsonUnmarshal) ∧
    (∀ s bs j no, b64DecodeList s = some bs → jsonParse bs = some j →
      unmarshalKVV j = some no → no.IsValid = false →
      ParseKataVirtualVolumeFromBase64 s = .error .validation) ∧
    (∀ s bs j no, b64DecodeList s = some bs → jsonParse bs = some j →
      unmarshalKVV j = some no → no.IsValid = true →
      ParseKataVirtualVolumeFromBase64 s = .ok no) := by
  refine ⟨?_, ?_, ?_, ?_, ?_⟩
  · intro s h
    rw [ParseKataVirtualVolumeFromBase64, h]
  · intro s bs h1 h2
    rw [ParseKataVirtualVolumeFromBase64, h1]
    show ParseKataVirtualVolume bs = .error .jsonUnmarshal
    rw [ParseKataVirtualVolume, h2]
  · intro s bs j h1 h2 h3
    rw [ParseKataVirtualVolumeFromBase64, h1]
    show ParseKataVirtualVolume bs = .error .jsonUnmarshal
    rw [ParseKataVirtualVolume, h2]
    show (match unmarshalKVV j with
      | none => (Except.error KvErr.jsonUnmarshal : Except KvErr KataVirtualVolume)
      | some no => if no.IsValid then .ok no else .error .validation) = .error .jsonUnmarshal
    rw [h3]
  · intro s bs j no h1 h2 h3 h4
    rw [ParseKataVirtualVolumeFromBase64, h1]
    show ParseKataVirtualVolume bs = .error .validation
    rw [ParseKataVirtualVolume, h2]
    show (match unmarshalKVV j with
      | none => (Except.error KvErr.jsonUnmarshal : Except KvErr KataVirtualVolume)
      | some no => if no.IsValid then .ok no else .error .validation) = .error .validation
    rw [h3]
    show (if no.IsValid = true then (Except.ok no : Except KvErr KataVirtualVolume)
      else .error .validation) = .error .validation
    rw [if_neg (by simp [h4])]
  · intro s bs j no h1 h2 h3 h4
    rw [ParseKataVirtualVolumeFromBase64, h1]
    show ParseKataVirtualVolume bs = .ok no
    rw [ParseKataVirtualVolume, h2]
    show (match unmarshalKVV j with
      | none => (Except.error KvErr.jsonUnmarshal : Except KvErr KataVirtualVolume)
      | some no => if no.IsValid then .ok no else .error .validation) = .ok no
    rw [h3]
    show (if no.IsValid = true then (Except.ok no : Except KvErr KataVirtualVolume)
      else .error .validation) = .ok no
    rw [if_pos h4]

theorem jsonParse_nil : jsonParse [] = none := by
  rw [jsonParse, show (List.length ([] : List Nat) + 1) = 0 + 1 from rfl, jsonDecVal]
  rfl

theorem jsonParse_digit : jsonParse [49] = some (.num [49]) := by
  have h := jsonDecVal_num 1 [49] [] (by decide) (by decide) (by decide)
  rw [List.append_nil] at h
  rw [jsonParse, show (List.length [49] + 1) = 1 + 1 from rfl, h]
  rfl

/-- C4 witness: one concrete input per stage. -/
theorem parseKataVirtualVolumeFromBase64_stages_witness :
    ParseKataVirtualVolumeFromBase64 [33] = .error .base64Decode ∧
    ParseKataVirtualVolumeFromBase64 [] = .error .jsonUnmarshal ∧
    ParseKataVirtualVolumeFromBase64 (b64EncodeList [49]) = .error .jsonUnmarshal ∧
    ParseKataVirtualVolumeFromBase64
      (b64EncodeList (jsonEnc (marshalKataVirtualVolume bogusVolume))) =
      .error .validation ∧
    ParseKataVirtualVolumeFromBase64
      (b64EncodeList (jsonEnc (marshalKataVirtualVolume sampleVolume))) = .ok sampleVolume := by
  obtain ⟨c1, c2, c3, c4, c5⟩ := parseKataVirtualVolumeFromBase64_stages
  have hwfB : jsonWf (marshalKataVirtualVolume bogusVolume) = true :=
    marshalKVV_wf bogusVolume bogusVolume_reprOk
  have hwfS : jsonWf (marshalKataVirtualVolume sampleVolume) = true :=
    marshalKVV_wf sampleVolume sampleVolume_reprOk
  refine ⟨c1 [33] rfl, c2 [] [] rfl jsonParse_nil,
    c3 (b64EncodeList [49]) [49] (.num [49]) (b64_roundtrip [49] (by decide))
      jsonParse_digit rfl,
    c4 _ _ _ bogusVolume (b64_roundtrip _ (jsonEnc_bytes _ hwfB)) (jsonParse_enc _ hwfB)
      (unmarshalKVV_marshal bogusVolume (reprOk_dm bogusVolume bogusVolume_reprOk))
      (by decide),
    c5 _ _ _ sampleVolume (b64_roundtrip _ (jsonEnc_bytes _ hwfS)) (jsonParse_enc _ hwfS)
      (unmarshalKVV_marshal sampleVolume (reprOk_dm sampleVolume sampleVolume_reprOk))
      (by decide)⟩

/-- C6: the encoder never validates — every volume, valid or not, encodes
successfully to `base64(json(volume))`; only the decode path enforces the
validation table, rejecting the encoding of an invalid volume with the
validation error kind. -/
theorem encodeKataVirtualVolume_unconditional (v : KataVirtualVolume) :
    EncodeKataVirtualVolumeToBase64 v =
      .ok (b64EncodeList (jsonEnc (marshalKataVirtualVolume v))) ∧
    (v.ReprOk → v.IsValid = false →
      ParseKataVirtualVolumeFromBase64
        (b64EncodeList (jsonEnc (marshalKataVirtualVolume v))) = .error .validation) := by
  refine ⟨rfl, fun hrepr hinv => ?_⟩
  have hwf : jsonWf (marshalKataVirtualVolume v) = true := marshalKVV_wf v hrepr
  have hb64 : b64DecodeList (b64EncodeList (jsonEnc (marshalKataVirtualVolume v))) =
      some (jsonEnc (marshalKataVirtualVolume v)) :=
    b64_roundtrip _ (jsonEnc_bytes _ hwf)
  rw [ParseKataVirtualVolumeFromBase64, hb64]
  show ParseKataVirtualVolume (jsonEnc (marshalKataVirtualVolume v)) = .error .validation
  rw [ParseKataVirtualVolume, jsonParse_enc _ hwf]
  show (match unmarshalKVV (marshalKataVirtualVolume v) with
    | none => (Except.error KvErr.jsonUnmarshal : Except KvErr KataVirtualVolume)
    | some no => if no.IsValid then .ok no else .error .validation) = .error .validation
  rw [unmarshalKVV_marshal v (reprOk_dm v hrepr)]
  show (if v.IsValid = true then (Except.ok v : Except KvErr KataVirtualVolume)
    else .error .validation) = .error .validation
  rw [if_neg (by simp [hinv])]

/-- C6 witness: an invalid descriptor still encodes, and its encoding is
rejected by the decoder with the validation kind. -/
theorem encodeKataVirtualVolume_unconditional_witness :
    EncodeKataVirtualVolumeToBase64 bogusVolume =
      .ok (b64EncodeList (jsonEnc (marshalKataVirtualVolume bogusVolume))) ∧
    ParseKataVirtualVolumeFromBase64
      (b64EncodeList (jsonEnc (marshalKataVirtualVolume bogusVolume))) =
      .error .validation :=
  ⟨(encodeKataVirtualVolume_unconditional bogusVolume).1,
   (encodeKataVirtualVolume_unconditional bogusVolume).2 bogusVolume_reprOk (by decide)⟩

/-! ### Unknown JSON fields (C8) -/

theorem jLookup_filter (tag : GoStr) (keep : GoStr × Json → Bool)
    (hkeep : ∀ p : GoStr × Json, toLowerStr p.1 = tag → keep p = true) :
    ∀ fs : List (GoStr × Json), jLookup tag (fs.filter keep) = jLookup tag fs := by
  have aux : ∀ (fs : List (GoStr × Json)) (acc : Option Json),
      (fs.filter keep).foldl
          (fun acc p => if toLowerStr p.1 = tag then some p.2 else acc) acc =
        fs.foldl (fun acc p => if toLowerStr p.1 = tag then some p.2 else acc) acc := by
    intro fs
    induction fs with
    | nil => intro acc; rfl
    | cons p fs ih =>
      intro acc
      cases hk : keep p with
      | true =>
        rw [List.filter_cons_of_pos hk, List.foldl_cons, List.foldl_cons, ih]
      | false =>
        have hnm : ¬toLowerStr p.1 = tag := fun hm => by
          rw [hkeep p hm] at hk
          cases hk
        rw [List.filter_cons_of_neg (by simp [hk]), List.foldl_cons, if_neg hnm, ih]
  intro fs
  rw [jLookup, jLookup, aux]

theorem unmarshalKVV_filter (fs : List (GoStr × Json)) :
    unmarshalKVV (.obj (fs.filter (fun p => recognizedKVVKey p.1))) =
      unmarshalKVV (.obj fs) := by
  have hkeep : ∀ (t : GoStr), t = tagVolumeType ∨ t = tagSource ∨ t = tagFsType ∨
      t = tagOptions ∨ t = tagDirectVolume ∨ t = tagImagePull ∨ t = tagNydusImage ∨
      t = tagDmVerity →
      ∀ p : GoStr × Json, toLowerStr p.1 = t → recognizedKVVKey p.1 = true := by
    intro t ht p hp
    rw [recognizedKVVKey, decide_eq_true_iff]
    rcases ht with rfl | rfl | rfl | rfl | rfl | rfl | rfl | rfl
    · exact Or.inl hp
    · exact Or.inr (Or.inl hp)
    · exact Or.inr (Or.inr (Or.inl hp))
    · exact Or.inr (Or.inr (Or.inr (Or.inl hp)))
    · exact Or.inr (Or.inr (Or.inr (Or.inr (Or.inl hp))))
    · exact Or.inr (Or.inr (Or.inr (Or.inr (Or.inr (Or.inl hp)))))
    · exact Or.inr (Or.inr (Or.inr (Or.inr (Or.inr (Or.inr (Or.inl hp))))))
    · exact Or.inr (Or.inr (Or.inr (Or.inr (Or.inr (Or.inr (Or.inr hp))))))
  have e1 : getStrField (fs.filter (fun p => recognizedKVVKey p.1)) tagVolumeType =
      getStrField fs tagVolumeType := by
    rw [getStrField, getStrField, jLookup_filter _ _ (hkeep _ (by tauto)) fs]
  have e2 : getStrField (fs.filter (fun p => recognizedKVVKey p.1)) tagSource =
      getStrField fs tagSource := by
    rw [getStrField, getStrField, jLookup_filter _ _ (hkeep _ (by tauto)) fs]
  have e3 : getStrField (fs.filter (fun p => recognizedKVVKey p.1)) tagFsType =
      getStrField fs tagFsType := by
    rw [getStrField, getStrField, jLookup_filter _ _ (hkeep _ (by tauto)) fs]
  have e4 : getStrListField (fs.filter (fun p => recognizedKVVKey p.1)) tagOptions =
      getStrListField fs tagOptions := by
    rw [getStrListField, getStrListField, jLookup_filter _ _ (hkeep _ (by tauto)) fs]
  have e5 : getPtrField (fs.filter (fun p => recognizedKVVKey p.1)) tagDirectVolume
      unmarshalDirect = getPtrField fs tagDirectVolume unmarshalDirect := by
    rw [getPtrField, getPtrField, jLookup_filter _ _ (hkeep _ (by tauto)) fs]
  have e6 : getPtrField (fs.filter (fun p => recognizedKVVKey p.1)) tagImagePull
      unmarshalImagePull = getPtrField fs tagImagePull unmarshalImagePull := by
    rw [getPtrField, getPtrField, jLookup_filter _ _ (hkeep _ (by tauto)) fs]
  have e7 : getPtrField (fs.filter (fun p => recognizedKVVKey p.1)) tagNydusImage
      unmarshalNydusImage = getPtrField fs tagNydusImage unmarshalNydusImage := by
    rw [getPtrField, getPtrField, jLookup_filter _ _ (hkeep _ (by tauto)) fs]
  have e8 : getPtrField (fs.filter (fun p => recognizedKVVKey p.1)) tagDmVerity
      unmarshalDmVerity = getPtrField fs tagDmVerity unmarshalDmVerity := by
    rw [getPtrField, getPtrField, jLookup_filter _ _ (hkeep _ (by tauto)) fs]
  rw [unmarshalKVV, unmarshalKVV, e1, e2, e3, e4, e5, e6, e7, e8]

/-- C8: `ParseKataVirtualVolume` never rejects unknown JSON fields — on any
document that parses to an object, the result equals the result on the object
restricted to the recognized schema keys, so unknown fields are silently
ignored and the outcome is determined solely by the recognized fields and the
validation table. -/
theorem parseKataVirtualVolume_ignores_unknown (bs : List Nat)
    (fs : List (GoStr × Json)) (h : jsonParse bs = some (.obj fs)) :
    ParseKataVirtualVolume bs =
      (match unmarshalKVV (.obj (fs.filter (fun p => recognizedKVVKey p.1))) with
       | none => .error .jsonUnmarshal
       | some no => if no.IsValid then .ok no else .error .validation) := by
  rw [ParseKataVirtualVolume, h, unmarshalKVV_filter]

/-- C8 witness: the claim applies to the empty JSON object. -/
theorem parseKataVirtualVolume_ignores_unknown_witness :
    ParseKataVirtualVolume (jsonEnc (Json.obj [])) =
      (match unmarshalKVV (.obj (([] : List (GoStr × Json)).filter
          (fun p => recognizedKVVKey p.1))) with
       | none => .error .jsonUnmarshal
       | some no => if no.IsValid then .ok no else .error .validation) :=
  parseKataVirtualVolume_ignores_unknown (jsonEnc (Json.obj [])) []
    (jsonParse_enc (Json.obj []) (by rw [jsonWf, jsonWfFields]))

/-! ### The Mount Option Assembler (C5, C9) -/

theorem wf_marshalExtraOption (e : ExtraOption) (h1 : bytesOk e.Source)
    (h2 : bytesOk e.Config) (h3 : bytesOk e.Snapshotdir) (h4 : bytesOk e.Version) :
    jsonWf (marshalExtraOption e) = true := by
  rw [marshalExtraOption, jsonWf, jsonWfFields, jsonWfFields, jsonWfFields, jsonWfFields,
    jsonWfFields, wf_str _ h1, wf_str _ h2, wf_str _ h3, wf_str _ h4,
    show tagSource.all (fun b => decide (b < 256)) = true from by decide,
    show tagConfig.all (fun b => decide (b < 256)) = true from by decide,
    show tagSnapshotdir.all (fun b => decide (b < 256)) = true from by decide,
    show tagFsVersion.all (fun b => decide (b < 256)) = true from by decide]
  rfl

theorem remoteMount_reduce (o : SnapshotterEnv) (opts : List GoStr) (src : GoStr)
    (d : DaemonM) (c : DaemonConfigM) (cc : GoStr)
    (h1 : o.bootstrapFile = .ok src) (h2 : o.getDaemon = .ok d)
    (h3 : (if d.isShared then d.sharedConfig else .ok d.ownConfig) = .ok c)
    (h4 : c.dump = .ok cc) :
    remoteMountWithExtraOptions o opts = remoteMountReadStage o opts src cc := by
  rw [remoteMountWithExtraOptions, h1, h2]
  show remoteMountConfigStage o opts src d = remoteMountReadStage o opts src cc
  rw [remoteMountConfigStage, h3]
  show (match c.dump with
        | .error _ => .error .external
        | .ok configContent => remoteMountReadStage o opts src configContent) =
      remoteMountReadStage o opts src cc
  rw [h4]

theorem sampleEnv_reprOk : sampleEnv.ReprOk := by
  refine ⟨?_, ?_, by decide, ?_⟩
  · intro s hs
    injection hs with h
    subst h
    decide
  · intro d cfg s hd hcfg hdump
    injection hd with hd'
    subst hd'
    rcases hcfg with rfl | hsh
    · injection hdump with h
      subst h
      decide
    · exact Except.noConfusion hsh
  · intro bs v hv
    injection hv with h
    subst h
    decide

/-- C5: when `remoteMountWithExtraOptions` succeeds it returns a single mount
entry of type `fuse.nydus-overlayfs` with source `overlay`, whose options are
the caller-supplied overlay options plus exactly one appended
`extraoption=<base64>` entry; stripping the 12-byte prefix and base64-decoding
recovers the marshalled JSON, which parses to the object with exactly the
string fields `source`, `config`, `snapshotdir` and `fs_version` holding the
resolved bootstrap path, the serialized daemon configuration, the snapshot
directory and the detected version. -/
theorem remoteMount_success_shape (o : SnapshotterEnv) (opts : List GoStr)
    (res : List Mount) (hok : o.ReprOk)
    (h : remoteMountWithExtraOptions o opts = .ok res) :
    ∃ e : ExtraOption,
      o.bootstrapFile = .ok e.Source ∧
      (∃ d c, o.getDaemon = .ok d ∧
        (if d.isShared then d.sharedConfig else .ok d.ownConfig) = .ok c ∧
        c.dump = .ok e.Config) ∧
      e.Snapshotdir = o.snapshotDir ∧
      (∃ bs, o.fileContents = some bs ∧ bs ≠ [] ∧
        o.detectFsVersion (bs.take (min 4096 bs.length)) = .ok e.Version) ∧
      res = [⟨strBytes "fuse.nydus-overlayfs", strBytes "overlay",
        opts ++ [strBytes "extraoption=" ++ b64EncodeList (jsonEnc (marshalExtraOption e))]⟩] ∧
      b64DecodeList ((strBytes "extraoption=" ++
          b64EncodeList (jsonEnc (marshalExtraOption e))).drop 12) =
        some (jsonEnc (marshalExtraOption e)) ∧
      jsonParse (jsonEnc (marshalExtraOption e)) =
        some (.obj [(tagSource, .str e.Source), (tagConfig, .str e.Config),
          (tagSnapshotdir, .str e.Snapshotdir), (tagFsVersion, .str e.Version)]) := by
  rw [remoteMountWithExtraOptions] at h
  split at h
  · exact Except.noConfusion h
  rename_i source hsrc
  split at h
  · exact Except.noConfusion h
  rename_i daemon hdaemon
  rw [remoteMountConfigStage] at h
  split at h
  · exact Except.noConfusion h
  rename_i c hc
  split at h
  · exact Except.noConfusion h
  rename_i configContent hdump
  rw [remoteMountReadStage] at h
  split at h
  · exact Except.noConfusion h
  rename_i contents hcont
  split at h
  · exact Except.noConfusion h
  rename_i hne
  split at h
  · exact Except.noConfusion h
  rename_i version hver
  injection h with hres
  have hbsrc : bytesOk source := hok.1 source hsrc
  have hcfgOr : c = daemon.ownConfig ∨ daemon.sharedConfig = .ok c := by
    cases hsh : daemon.isShared with
    | true =>
      rw [hsh] at hc
      simp only [if_pos] at hc
      exact Or.inr hc
    | false =>
      rw [hsh] at hc
      simp only [Bool.false_eq_true, if_false] at hc
      injection hc with hc'
      exact Or.inl hc'.symm
  have hcc : bytesOk configContent := hok.2.1 daemon c configContent hdaemon hcfgOr hdump
  have hsd : bytesOk o.snapshotDir := hok.2.2.1
  have hvb : bytesOk version := hok.2.2.2 _ _ hver
  have hwf : jsonWf (marshalExtraOption ⟨source, configContent, o.snapshotDir, version⟩) =
      true := wf_marshalExtraOption _ hbsrc hcc hsd hvb
  refine ⟨⟨source, configContent, o.snapshotDir, version⟩, hsrc,
    ⟨daemon, c, hdaemon, hc, hdump⟩, rfl, ⟨contents, hcont, hne, hver⟩, hres.symm, ?_, ?_⟩
  · rw [show (12 : Nat) = (strBytes "extraoption=").length from rfl, List.drop_left]
    exact b64_roundtrip _ (jsonEnc_bytes _ hwf)
  · rw [jsonParse_enc _ hwf]
    rfl

/-- C5 witness: on `sampleEnv` with no caller options, the assembler succeeds
with the claimed shape. -/
theorem remoteMount_success_shape_witness :
    ∃ e : ExtraOption,
      sampleEnv.bootstrapFile = .ok e.Source ∧
      (∃ d c, sampleEnv.getDaemon = .ok d ∧
        (if d.isShared then d.sharedConfig else .ok d.ownConfig) = .ok c ∧
        c.dump = .ok e.Config) ∧
      e.Snapshotdir = sampleEnv.snapshotDir ∧
      (∃ bs, sampleEnv.fileContents = some bs ∧ bs ≠ [] ∧
        sampleEnv.detectFsVersion (bs.take (min 4096 bs.length)) = .ok e.Version) ∧
      ([⟨strBytes "fuse.nydus-overlayfs", strBytes "overlay",
          [strBytes "extraoption=" ++ b64EncodeList (jsonEnc (marshalExtraOption
            ⟨strBytes "/b", strBytes "cfg", strBytes "/sd", strBytes "v6"⟩))]⟩] : List Mount) =
        [⟨strBytes "fuse.nydus-overlayfs", strBytes "overlay",
          [] ++ [strBytes "extraoption=" ++ b64EncodeList (jsonEnc (marshalExtraOption e))]⟩] ∧
      b64DecodeList ((strBytes "extraoption=" ++
          b64EncodeList (jsonEnc (marshalExtraOption e))).drop 12) =
        some (jsonEnc (marshalExtraOption e)) ∧
      jsonParse (jsonEnc (marshalExtraOption e)) =
        some (.obj [(tagSource, .str e.Source), (tagConfig, .str e.Config),
          (tagSnapshotdir, .str e.Snapshotdir), (tagFsVersion, .str e.Version)]) :=
  remoteMount_success_shape sampleEnv []
    [⟨strBytes "fuse.nydus-overlayfs", strBytes "overlay",
      [strBytes "extraoption=" ++ b64EncodeList (jsonEnc (marshalExtraOption
        ⟨strBytes "/b", strBytes "cfg", strBytes "/sd", strBytes "v6"⟩))]⟩]
    sampleEnv_reprOk rfl

/-- C9: once the bootstrap path, daemon, configuration and its dump have
resolved, an empty bootstrap file makes the assembler fail with the IO read
error — identically for every version detector, so the detector is never
invoked and the error is IO-kind, not format-kind; on a non-empty file the
outcome is exactly that of the detector applied to the prefix of at most 4096
bytes actually read. -/
theorem remoteMount_empty_bootstrap_io_error (o : SnapshotterEnv) (opts : List GoStr)
    (src : GoStr) (d : DaemonM) (c : DaemonConfigM) (cc : GoStr)
    (h1 : o.bootstrapFile = .ok src) (h2 : o.getDaemon = .ok d)
    (h3 : (if d.isShared then d.sharedConfig else .ok d.ownConfig) = .ok c)
    (h4 : c.dump = .ok cc) :
    (o.fileContents = some [] →
      remoteMountWithExtraOptions o opts = .error .ioRead ∧
        ∀ g, remoteMountWithExtraOptions
          { o with detectFsVersion := g } opts = .error .ioRead) ∧
    ∀ bs, o.fileContents = some bs → bs ≠ [] →
      remoteMountWithExtraOptions o opts =
        (match o.detectFsVersion (bs.take (min 4096 bs.length)) with
         | .error _ => .error .format
         | .ok version => .ok [⟨strBytes "fuse.nydus-overlayfs", strBytes "overlay",
             opts ++ [strBytes "extraoption=" ++ b64EncodeList (jsonEnc
               (marshalExtraOption ⟨src, cc, o.snapshotDir, version⟩))]⟩]) := by
  constructor
  · intro hemp
    constructor
    · rw [remoteMount_reduce o opts src d c cc h1 h2 h3 h4, remoteMountReadStage, hemp]
      rfl
    · intro g
      rw [remoteMount_reduce { o with detectFsVersion := g } opts src d c cc h1 h2 h3 h4,
        remoteMountReadStage,
        show ({ o with detectFsVersion := g } : SnapshotterEnv).fileContents =
          o.fileContents from rfl, hemp]
      rfl
  · intro bs hbs hne
    rw [remoteMount_reduce o opts src d c cc h1 h2 h3 h4, remoteMountReadStage, hbs]
    show (if bs = [] then Except.error MountErr.ioRead
        else match o.detectFsVersion (bs.take (min 4096 bs.length)) with
          | .error _ => .error .format
          | .ok version => .ok [(⟨strBytes "fuse.nydus-overlayfs", strBytes "overlay",
              opts ++ [strBytes "extraoption=" ++ b64EncodeList (jsonEnc
                (marshalExtraOption ⟨src, cc, o.snapshotDir, version⟩))]⟩ : Mount)]) = _
    rw [if_neg hne]

/-- C9 witness: on `sampleEnv` with an emptied bootstrap file, every stage up
to the read succeeds and the assembler reports the IO read error. -/
theorem remoteMount_empty_bootstrap_io_error_witness :
    remoteMountWithExtraOptions { sampleEnv with fileContents := some [] } [] =
      .error .ioRead :=
  ((remoteMount_empty_bootstrap_io_error { sampleEnv with fileContents := some [] } []
      (strBytes "/b") ⟨false, .error (), ⟨.ok (strBytes "cfg")⟩⟩ ⟨.ok (strBytes "cfg")⟩
      (strBytes "cfg") rfl rfl rfl rfl).1 rfl).1

end NydusSnapshot
